import Mathlib

/-!
Verification development for the RFP management backend (NestJS + Sequelize).

The definitions below are a shallow embedding of the backend services:
the persistent store (Postgres tables behind Sequelize models) is a
`State` record of lists of rows, each service method is a pure function
from `State` to `State` (plus a result), and the external collaborators
(the Gemini AI calls, SMTP sending, pdf-parse) are passed in as explicit
outcome parameters, since the services only branch on whether those calls
succeed and on the values they return.

Sources embedded:
- src/backend/src/database/models/rfp.model.ts, vendor.model.ts (which
  also carries the proposal model), rfp-vendor.model.ts: row shapes and
  status enums.
- src/backend/src/modules/proposal/proposal.service.ts:
  processIncomingEmail, applyParsedData, createManualProposal, selectWinner,
  extractEmailAddress.
- vendor.service.ts: create, update, remove.
- rfp.service.ts: sendToVendors.
- ai.service.ts: generateJSON retry loop.
- comparison.service.ts: compareProposals, buildPriceComparison,
  buildDeliveryComparison, buildScoreComparison.

Conventions: row ids, timestamps and sizes are `Nat`; money amounts,
delivery day counts used in arithmetic, and AI scores are `Rat` (the
source manipulates JS numbers); nullable columns are `Option`; JSONB
bags are opaque association lists.  JS truthiness tests on strings and
numbers (`x ? a : b`, `x || y`) are modelled explicitly: a string is
falsy iff empty, a number is falsy iff zero, null/undefined is falsy.

Note on `RfpStatus`: the backend enum in rfp.model.ts lists
draft/published/sent/evaluating/deal_sold, while rfp.service.ts guards on
`RfpStatus.CLOSED` and the frontend type union includes `closed`; the
embedding therefore carries a `closed` constructor so that the service
guard is expressible.
-/

/-! ## Small string helpers (JS string operations used by the services) -/

/-- `needle` occurs at the head of `hay` (chars). Mirrors JS `String.startsWith`. -/
def startsWithChars : List Char → List Char → Bool
  | [], _ => true
  | _ :: _, [] => false
  | a :: as, b :: bs => a = b && startsWithChars as bs

/-- `needle` occurs somewhere in `hay` (chars). Mirrors JS `String.includes`. -/
def containsChars (needle : List Char) : List Char → Bool
  | [] => startsWithChars needle []
  | c :: rest => startsWithChars needle (c :: rest) || containsChars needle rest

/-- JS `hay.includes needle` on Lean strings. -/
def strIncludes (hay needle : String) : Bool :=
  containsChars needle.data hay.data

/-- JS `s.startsWith t`. -/
def strStarts (s t : String) : Bool :=
  startsWithChars t.data s.data

/-- JS `s.endsWith t`. -/
def strEnds (s t : String) : Bool :=
  startsWithChars t.data.reverse s.data.reverse

/-- JS truthiness of an optional string: null/undefined and `""` are falsy. -/
def strTruthy : Option String → Bool
  | none => false
  | some s => s ≠ ""

/-- JS `a || b` where `a` is an optional string and `b` a string. -/
def strOrElse (a : Option String) (b : String) : String :=
  match a with
  | some s => if s ≠ "" then s else b
  | none => b

/-- JS `a || b` for two optional strings, keeping the option. -/
def strOrElseOpt (a b : Option String) : Option String :=
  match a with
  | some s => if s ≠ "" then some s else b
  | none => b

/-! ## Status enums (database/models) -/

/-- rfp.model.ts `RfpStatus` (the `AWARDED` member has string value `deal_sold`);
`closed` is the extra member referenced by rfp.service.ts and the frontend type. -/
inductive RfpStatus where
  | draft
  | published
  | sent
  | evaluating
  | deal_sold
  | closed
deriving DecidableEq, Repr

/-- proposal model `ProposalStatus`. -/
inductive ProposalStatus where
  | received
  | parsing
  | parsed
  | parse_failed
  | evaluated
  | selected
  | rejected
deriving DecidableEq, Repr

/-- rfp-vendor.model.ts `RfpVendorStatus`. -/
inductive RfpVendorStatus where
  | pending
  | sent
  | delivered
  | responded
  | declined
deriving DecidableEq, Repr

/-! ## Row shapes (database/models) -/

/-- vendors table. `isDeleted` is the soft-delete flag queried by the services. -/
structure Vendor where
  id : Nat
  companyName : String
  contactPerson : String
  email : String
  phone : Option String := none
  address : Option String := none
  category : Option String := none
  notes : Option String := none
  isActive : Bool := true
  isDeleted : Bool := false
deriving DecidableEq, Repr

/-- rfp_items table (line items of a request), embedded in its `Rfp` row. -/
structure RfpItem where
  id : Nat
  name : String
  description : Option String := none
  quantity : Rat
  unit : Option String := none
  specifications : Option (List (String × String)) := none
deriving DecidableEq, Repr

/-- rfps table. -/
structure Rfp where
  id : Nat
  title : String
  description : String
  originalInput : Option String := none
  budget : Option Rat := none
  currency : Option String := none
  deadline : Option Nat := none
  deliveryDays : Option Rat := none
  paymentTerms : Option String := none
  warrantyTerms : Option String := none
  additionalRequirements : Option (List (String × String)) := none
  status : RfpStatus := .draft
  aiSummary : Option String := none
  items : List RfpItem := []
deriving DecidableEq, Repr

/-- rfp_vendors table (the request↔vendor Assignment). -/
structure RfpVendor where
  id : Nat
  rfpId : Nat
  vendorId : Nat
  status : RfpVendorStatus := .pending
  sentAt : Option Nat := none
  respondedAt : Option Nat := none
  emailMessageId : Option String := none
deriving DecidableEq, Repr

/-- Attachment metadata persisted on a proposal row (JSONB `attachments`). -/
structure AttachmentInfo where
  filename : String
  contentType : String
  size : Nat
  parsedContent : Option String := none
deriving DecidableEq, Repr

/-- AI score breakdown (JSONB `aiScoreBreakdown`). -/
structure ScoreBreakdown where
  priceScore : Rat := 0
  deliveryScore : Rat := 0
  termsScore : Rat := 0
  completenessScore : Rat := 0
  complianceScore : Rat := 0
deriving DecidableEq, Repr

/-! ## AI payloads (ai.service.ts interfaces) -/

/-- `ParsedProposal` items. -/
structure ParsedProposalItem where
  name : String
  description : Option String := none
  quantity : Rat
  unitPrice : Option Rat := none
  totalPrice : Option Rat := none
  specifications : Option (List (String × String)) := none
deriving DecidableEq, Repr

/-- ai.service.ts `ParsedProposal`. -/
structure ParsedProposal where
  totalPrice : Option Rat := none
  currency : Option String := none
  deliveryDays : Option Rat := none
  paymentTerms : Option String := none
  warrantyTerms : Option String := none
  validityPeriod : Option String := none
  items : List ParsedProposalItem := []
  additionalTerms : Option (List (String × String)) := none
  summary : String := ""
  confidence : Rat := 0
deriving DecidableEq, Repr

/-- ai.service.ts `ProposalEvaluation`. -/
structure ProposalEvaluation where
  overallScore : Rat
  scoreBreakdown : ScoreBreakdown
  strengths : List String := []
  weaknesses : List String := []
  recommendation : String := ""
deriving DecidableEq, Repr

/-- proposals table (the Response row). -/
structure Proposal where
  id : Nat
  rfpId : Nat
  vendorId : Nat
  status : ProposalStatus := .received
  rawEmailBody : Option String := none
  emailSubject : Option String := none
  emailReceivedAt : Option Nat := none
  emailMessageId : Option String := none
  attachments : List AttachmentInfo := []
  totalPrice : Option Rat := none
  currency : Option String := none
  deliveryDays : Option Rat := none
  paymentTerms : Option String := none
  warrantyTerms : Option String := none
  validityPeriod : Option String := none
  additionalTerms : Option (List (String × String)) := none
  aiSummary : Option String := none
  aiExtractedData : Option ParsedProposal := none
  aiScore : Option Rat := none
  aiScoreBreakdown : Option ScoreBreakdown := none
  aiStrengths : Option (List String) := none
  aiWeaknesses : Option (List String) := none
  aiRecommendation : Option String := none
deriving DecidableEq, Repr

/-- proposal_items table. -/
structure ProposalItem where
  id : Nat
  proposalId : Nat
  name : String
  description : Option String := none
  quantity : Rat
  unitPrice : Option Rat := none
  totalPrice : Option Rat := none
  currency : Option String := none
  specifications : Option (List (String × String)) := none
deriving DecidableEq, Repr

/-- The persistent store: one list per table, plus a fresh-id counter that
models the id generation done by the database on insert. -/
structure State where
  vendors : List Vendor := []
  rfps : List Rfp := []
  rfpVendors : List RfpVendor := []
  proposals : List Proposal := []
  proposalItems : List ProposalItem := []
  nextId : Nat := 1
deriving DecidableEq, Repr

/-! ## Option helpers -/

/-- Sequelize `update` skips `undefined` values: a `none` DTO field leaves the
column unchanged. -/
def optOr {α : Type} (a b : Option α) : Option α :=
  match a with
  | some x => some x
  | none => b

/-- JS `x || d` on an optional number: null/undefined and 0 are falsy. -/
def jsOrNum (x : Option Rat) (d : Rat) : Rat :=
  match x with
  | some v => if v ≠ 0 then v else d
  | none => d

/-! ## VendorService (vendor.service.ts) -/

/-- `CreateVendorDto`: `email` is validated with `IsEmail`, the rest are
strings / optional strings. -/
structure CreateVendorDto where
  companyName : String
  contactPerson : String
  email : String
  phone : Option String := none
  address : Option String := none
  category : Option String := none
  notes : Option String := none
deriving DecidableEq, Repr

/-- `UpdateVendorDto`: every field optional; absent fields are not applied. -/
structure UpdateVendorDto where
  companyName : Option String := none
  contactPerson : Option String := none
  email : Option String := none
  phone : Option String := none
  address : Option String := none
  category : Option String := none
  notes : Option String := none
  isActive : Option Bool := none
deriving DecidableEq, Repr

inductive VendorError where
  | conflict
  | notFound
deriving DecidableEq, Repr

/-- Reactivation of a soft-deleted row:
`deletedVendor.update({ ...createVendorDto, isDeleted: false, isActive: true })`. -/
def reactivateVendor (dto : CreateVendorDto) (v : Vendor) : Vendor :=
  { v with
    companyName := dto.companyName
    contactPerson := dto.contactPerson
    email := dto.email
    phone := optOr dto.phone v.phone
    address := optOr dto.address v.address
    category := optOr dto.category v.category
    notes := optOr dto.notes v.notes
    isActive := true
    isDeleted := false }

/-- `vendor.update(updateVendorDto)`: only provided fields are applied. -/
def applyUpdateVendorDto (dto : UpdateVendorDto) (v : Vendor) : Vendor :=
  { v with
    companyName := (dto.companyName).getD v.companyName
    contactPerson := (dto.contactPerson).getD v.contactPerson
    email := (dto.email).getD v.email
    phone := optOr dto.phone v.phone
    address := optOr dto.address v.address
    category := optOr dto.category v.category
    notes := optOr dto.notes v.notes
    isActive := (dto.isActive).getD v.isActive }

namespace VendorService

/-- `VendorService.create`: conflict on an existing non-deleted vendor with the
same email, reactivation of a soft-deleted one, otherwise a fresh insert. -/
def create (s : State) (dto : CreateVendorDto) : Except VendorError Nat × State :=
  match s.vendors.find? (fun v => v.email == dto.email && v.isDeleted == false) with
  | some _ => (.error .conflict, s)
  | none =>
    match s.vendors.find? (fun v => v.email == dto.email && v.isDeleted == true) with
    | some w =>
      (.ok w.id,
        { s with vendors := s.vendors.map (fun v => if v.id == w.id then reactivateVendor dto v else v) })
    | none =>
      let v : Vendor :=
        { id := s.nextId
          companyName := dto.companyName
          contactPerson := dto.contactPerson
          email := dto.email
          phone := dto.phone
          address := dto.address
          category := dto.category
          notes := dto.notes
          isActive := true
          isDeleted := false }
      (.ok s.nextId, { s with vendors := s.vendors ++ [v], nextId := s.nextId + 1 })

/-- `VendorService.update`: `findOne` only sees non-deleted rows; the duplicate
check runs only when the DTO email is truthy and differs from the current one. -/
def update (s : State) (id : Nat) (dto : UpdateVendorDto) : Except VendorError Nat × State :=
  match s.vendors.find? (fun v => v.id == id && v.isDeleted == false) with
  | none => (.error .notFound, s)
  | some v =>
    if strTruthy dto.email ∧ dto.email ≠ some v.email then
      match s.vendors.find? (fun w => some w.email == dto.email && w.isDeleted == false) with
      | some _ => (.error .conflict, s)
      | none =>
        (.ok id,
          { s with vendors := s.vendors.map (fun w => if w.id == v.id then applyUpdateVendorDto dto w else w) })
    else
      (.ok id,
        { s with vendors := s.vendors.map (fun w => if w.id == v.id then applyUpdateVendorDto dto w else w) })

/-- `VendorService.remove`: soft delete via `isDeleted := true`. -/
def remove (s : State) (id : Nat) : Except VendorError Unit × State :=
  match s.vendors.find? (fun v => v.id == id && v.isDeleted == false) with
  | none => (.error .notFound, s)
  | some v =>
    (.ok (),
      { s with vendors := s.vendors.map (fun w => if w.id == v.id then { w with isDeleted := true } else w) })

end VendorService

/-! ## AiService.generateJSON (ai.service.ts) -/

/-- Outcome of one `model.generateContent` + JSON-extraction attempt: either a
parsed value or a thrown error carrying `error.message || ''`. -/
inductive AiAttempt (T : Type) where
  | success (v : T)
  | failure (msg : String)
deriving DecidableEq, Repr

/-- The rate-limit test applied to `error.message`. -/
def isRateLimitError (msg : String) : Bool :=
  strIncludes msg "429" || strIncludes msg "Too Many Requests" ||
    strIncludes msg "Resource exhausted"

/-- `const backoffSchedule = [1000, 30000, 60000, 90000]` (ms). -/
def backoffScheduleMs : List Nat := [1000, 30000, 60000, 90000]

/-- `backoffSchedule[Math.min(attempt, backoffSchedule.length - 1)]`. -/
def backoffForAttempt (attempt : Nat) : Nat :=
  backoffScheduleMs.getD (min attempt (backoffScheduleMs.length - 1)) 0

/-- The retry loop of `generateJSON`, structurally recursive on the remaining
attempts.  Returns the result (`Except`; `.error none` models `throw null` when
the loop never ran) together with the list of sleep delays performed. -/
def generateJSONGo {T : Type} (outcomes : Nat → AiAttempt T) :
    Nat → Nat → Option String → Except (Option String) T × List Nat
  | 0, _, lastErr => (.error lastErr, [])
  | fuel + 1, attempt, _ =>
    match outcomes attempt with
    | .success v => (.ok v, [])
    | .failure msg =>
      if isRateLimitError msg then
        let rest := generateJSONGo outcomes fuel (attempt + 1) (some msg)
        (rest.1, backoffForAttempt attempt :: rest.2)
      else
        (.error (some msg), [])

/-- `DEFAULTS.AI_MAX_RETRIES` (constants.ts) and the `maxRetries = 5` default. -/
def AI_MAX_RETRIES : Nat := 5

/-- `AiService.generateJSON(prompt, maxRetries)`, abstracted over the per-attempt
outcomes of the provider call. -/
def generateJSON {T : Type} (outcomes : Nat → AiAttempt T) (maxRetries : Nat) :
    Except (Option String) T × List Nat :=
  generateJSONGo outcomes maxRetries 0 none

/-! ## Stable sort (JS `Array.prototype.sort` is stable since ES2019) -/

/-- Insert `x` after every already-placed element `y` with `le y x`. -/
def insertSorted {α : Type} (le : α → α → Bool) (x : α) : List α → List α
  | [] => [x]
  | y :: ys => if le y x then y :: insertSorted le x ys else x :: y :: ys

/-- Stable insertion sort: equal elements keep their original order, matching
the JS engine's stable sort under a numeric comparator. -/
def stableSortBy {α : Type} (le : α → α → Bool) (l : List α) : List α :=
  l.foldl (fun acc x => insertSorted le x acc) []

/-! ## ComparisonService (comparison.service.ts) -/

/-- One entry of `priceComparison`. -/
structure PriceEntry where
  vendorName : String
  price : Option Rat
  percentOfBudget : Option Rat
  ranking : Nat
deriving DecidableEq, Repr

/-- One entry of `deliveryComparison`. -/
structure DeliveryEntry where
  vendorName : String
  days : Option Rat
  meetsRequirement : Bool
  ranking : Nat
deriving DecidableEq, Repr

/-- One entry of `scoreComparison`. -/
structure ScoreEntry where
  vendorName : String
  score : Option Rat
  ranking : Nat
deriving DecidableEq, Repr

/-- Per-proposal summary included in the comparison result. -/
structure ProposalSummary where
  id : Nat
  vendorName : String
  vendorId : Nat
  totalPrice : Option Rat
  deliveryDays : Option Rat
  score : Option Rat
  status : ProposalStatus
deriving DecidableEq, Repr

/-- `ComparisonResult` (without the optional AI recommendation, which is
attached separately by `getFullComparison`). -/
structure ComparisonResult where
  rfpId : Nat
  title : String
  budget : Option Rat
  deliveryDays : Option Rat
  proposals : List ProposalSummary
  priceComparison : List PriceEntry
  deliveryComparison : List DeliveryEntry
  scoreComparison : List ScoreEntry
deriving DecidableEq, Repr

/-- `budget && p.totalPrice ? (p.totalPrice / budget) * 100 : undefined`:
both operands must be truthy (non-null and nonzero). -/
def percentOfBudgetOf (budget totalPrice : Option Rat) : Option Rat :=
  match budget, totalPrice with
  | some b, some t => if b ≠ 0 ∧ t ≠ 0 then some (t / b * 100) else none
  | _, _ => none

/-- Ranking assignment `sorted.map((p, index) => ... ranking: index + 1)`,
carried out with an explicit start index. -/
def rankPriceEntries (budget : Option Rat) : Nat → List (Proposal × String) → List PriceEntry
  | _, [] => []
  | n, p :: rest =>
    { vendorName := p.2
      price := p.1.totalPrice
      percentOfBudget := percentOfBudgetOf budget p.1.totalPrice
      ranking := n } :: rankPriceEntries budget (n + 1) rest

/-- `buildPriceComparison`: filter on non-null `totalPrice`, ascending stable
sort on `totalPrice || 0`, rankings 1..n. -/
def buildPriceComparison (proposals : List (Proposal × String)) (budget : Option Rat) :
    List PriceEntry :=
  let sorted := stableSortBy
    (fun a b => jsOrNum a.1.totalPrice 0 ≤ jsOrNum b.1.totalPrice 0)
    (proposals.filter (fun p => p.1.totalPrice.isSome))
  rankPriceEntries budget 1 sorted

/-- `requiredDays ? (p.deliveryDays || 999) <= requiredDays : true`. -/
def meetsRequirementOf (requiredDays days : Option Rat) : Bool :=
  match requiredDays with
  | some r => if r ≠ 0 then decide (jsOrNum days 999 ≤ r) else true
  | none => true

def rankDeliveryEntries (requiredDays : Option Rat) :
    Nat → List (Proposal × String) → List DeliveryEntry
  | _, [] => []
  | n, p :: rest =>
    { vendorName := p.2
      days := p.1.deliveryDays
      meetsRequirement := meetsRequirementOf requiredDays p.1.deliveryDays
      ranking := n } :: rankDeliveryEntries requiredDays (n + 1) rest

/-- `buildDeliveryComparison`: filter on non-null `deliveryDays`, ascending
stable sort on `deliveryDays || 999`. -/
def buildDeliveryComparison (proposals : List (Proposal × String)) (requiredDays : Option Rat) :
    List DeliveryEntry :=
  let sorted := stableSortBy
    (fun a b => jsOrNum a.1.deliveryDays 999 ≤ jsOrNum b.1.deliveryDays 999)
    (proposals.filter (fun p => p.1.deliveryDays.isSome))
  rankDeliveryEntries requiredDays 1 sorted

def rankScoreEntries : Nat → List (Proposal × String) → List ScoreEntry
  | _, [] => []
  | n, p :: rest =>
    { vendorName := p.2
      score := p.1.aiScore
      ranking := n } :: rankScoreEntries (n + 1) rest

/-- `buildScoreComparison`: filter on non-null `aiScore`, descending stable
sort on `aiScore || 0`. -/
def buildScoreComparison (proposals : List (Proposal × String)) : List ScoreEntry :=
  let sorted := stableSortBy
    (fun a b => jsOrNum b.1.aiScore 0 ≤ jsOrNum a.1.aiScore 0)
    (proposals.filter (fun p => p.1.aiScore.isSome))
  rankScoreEntries 1 sorted

/-- The `include: [{ model: Vendor, as: 'vendor' }]` join: resolve the vendor
company name of a proposal row. -/
def vendorNameOf (s : State) (p : Proposal) : String :=
  match s.vendors.find? (fun v => v.id == p.vendorId) with
  | some v => v.companyName
  | none => ""

/-- `ComparisonService.compareProposals(rfpId)`. `.error ()` is the
`NotFoundException` for a missing RFP. -/
def compareProposals (s : State) (rfpId : Nat) : Except Unit ComparisonResult :=
  match s.rfps.find? (fun r => r.id == rfpId) with
  | none => .error ()
  | some rfp =>
    let ps := (s.proposals.filter (fun p => p.rfpId == rfpId)).map
      (fun p => (p, vendorNameOf s p))
    if ps.length = 0 then
      .ok
        { rfpId := rfp.id
          title := rfp.title
          budget := rfp.budget
          deliveryDays := rfp.deliveryDays
          proposals := []
          priceComparison := []
          deliveryComparison := []
          scoreComparison := [] }
    else
      .ok
        { rfpId := rfp.id
          title := rfp.title
          budget := rfp.budget
          deliveryDays := rfp.deliveryDays
          proposals := ps.map (fun p =>
            { id := p.1.id
              vendorName := p.2
              vendorId := p.1.vendorId
              totalPrice := p.1.totalPrice
              deliveryDays := p.1.deliveryDays
              score := p.1.aiScore
              status := p.1.status })
          priceComparison := buildPriceComparison ps rfp.budget
          deliveryComparison := buildDeliveryComparison ps rfp.deliveryDays
          scoreComparison := buildScoreComparison ps }

/-! ## ProposalService.selectWinner (proposal.service.ts) -/

/-- `selectWinner(proposalId)`: reject every proposal of the RFP, select the
chosen one, set the RFP to `deal_sold` (`RfpStatus.AWARDED`). `.error ()` is
the `NotFoundException` from `findOne`. -/
def selectWinner (s : State) (proposalId : Nat) : Except Unit Nat × State :=
  match s.proposals.find? (fun p => p.id == proposalId) with
  | none => (.error (), s)
  | some prop =>
    let s1 := { s with proposals := s.proposals.map (fun (p : Proposal) =>
      if p.rfpId == prop.rfpId then { p with status := .rejected } else p) }
    let s2 := { s1 with proposals := s1.proposals.map (fun (p : Proposal) =>
      if p.id == proposalId then { p with status := .selected } else p) }
    let s3 := { s2 with rfps := s2.rfps.map (fun (r : Rfp) =>
      if r.id == prop.rfpId then { r with status := .deal_sold } else r) }
    (.ok proposalId, s3)

/-! ## Email ingestion (proposal.service.ts processIncomingEmail) -/

/-- One inbound attachment.  `pdfText` is the abstracted outcome of `pdfParse`
(`none` models a thrown parse error); `textContent` is the UTF-8 decoding of
the raw bytes. -/
structure EmailAttachment where
  filename : String
  contentType : String
  size : Nat
  pdfText : Option String := none
  textContent : String := ""
deriving DecidableEq, Repr

/-- email.service.ts `EmailMessage` (`from` is a Lean keyword, hence
`fromAddr`). -/
structure EmailMessage where
  messageId : String
  fromAddr : String
  subject : String
  body : String
  date : Nat
  attachments : List EmailAttachment
deriving DecidableEq, Repr

/-- Scan for the regex `<([^>]+)>`: at a `'<'`, the group is the maximal run of
non-`'>'` characters, which must be non-empty and followed by a `'>'`;
otherwise the scan continues one position to the right. -/
def extractAngleGroup : List Char → Option (List Char)
  | [] => none
  | c :: rest =>
    if c = '<' then
      let inner := rest.takeWhile (fun d => d ≠ '>')
      if inner.length ≠ 0 ∧ inner.length < rest.length then some inner
      else extractAngleGroup rest
    else extractAngleGroup rest

/-- `extractEmailAddress(fromString)`: the text inside the first `<...>` match
if present, else the raw string. -/
def extractEmailAddress (fromString : String) : String :=
  match extractAngleGroup fromString.data with
  | some inner => String.mk inner
  | none => fromString

/-- Sender resolution: a non-deleted vendor whose email equals the extracted
sender address. -/
def resolveVendor (s : State) (fromAddr : String) : Option Vendor :=
  s.vendors.find? (fun v => v.email == extractEmailAddress fromAddr && v.isDeleted == false)

/-- Request correlation: among the vendor's Assignments with status `sent`,
the one with the greatest `sentAt` (`ORDER BY sentAt DESC` and take the first;
the earliest row wins ties). -/
def resolveAssignment (s : State) (vendorId : Nat) : Option RfpVendor :=
  (s.rfpVendors.filter (fun rv =>
      rv.vendorId == vendorId && rv.status == RfpVendorStatus.sent)).foldl
    (fun best rv =>
      match best with
      | none => some rv
      | some b => if rv.sentAt.getD 0 > b.sentAt.getD 0 then some rv else some b)
    none

/-- Attachment extraction for one attachment: returns the stored metadata and
the optional entry pushed onto `attachmentContents`.  A pdf-parse throw is the
metadata-only branch; empty extracted text is stored as `undefined`
(`parsedContent: content || undefined`). -/
def processOneAttachment (a : EmailAttachment) : AttachmentInfo × Option String :=
  if a.contentType == "application/pdf" then
    match a.pdfText with
    | none => ({ filename := a.filename, contentType := a.contentType, size := a.size }, none)
    | some t =>
      ({ filename := a.filename, contentType := a.contentType, size := a.size
         parsedContent := if t ≠ "" then some t else none },
       if t ≠ "" then some ("File: " ++ a.filename ++ "\n" ++ t) else none)
  else if strStarts a.contentType "text/" || strEnds a.filename ".txt" ||
      strEnds a.filename ".csv" then
    ({ filename := a.filename, contentType := a.contentType, size := a.size
       parsedContent := if a.textContent ≠ "" then some a.textContent else none },
     if a.textContent ≠ "" then some ("File: " ++ a.filename ++ "\n" ++ a.textContent) else none)
  else
    ({ filename := a.filename, contentType := a.contentType, size := a.size }, none)

/-- The metadata list persisted on the proposal row. -/
def attachmentInfoOf (atts : List EmailAttachment) : List AttachmentInfo :=
  atts.map (fun a => (processOneAttachment a).1)

/-- The extracted text list handed to the AI parse call. -/
def attachmentContentsOf (atts : List EmailAttachment) : List String :=
  atts.filterMap (fun a => (processOneAttachment a).2)

/-- Response upsert: create the row for the (request, vendor) pair if absent,
else overwrite its raw fields; status becomes `parsing` either way.  Returns
the new state and the row id. -/
def upsertProposal (s : State) (rfpId vendorId : Nat) (email : EmailMessage)
    (info : List AttachmentInfo) : State × Nat :=
  match s.proposals.find? (fun p => p.rfpId == rfpId && p.vendorId == vendorId) with
  | none =>
    let p : Proposal :=
      { id := s.nextId
        rfpId := rfpId
        vendorId := vendorId
        status := .parsing
        rawEmailBody := some email.body
        emailSubject := some email.subject
        emailReceivedAt := some email.date
        emailMessageId := some email.messageId
        attachments := info }
    ({ s with proposals := s.proposals ++ [p], nextId := s.nextId + 1 }, s.nextId)
  | some p0 =>
    ({ s with proposals := s.proposals.map (fun (p : Proposal) =>
        if p.id == p0.id then
          { p with
            status := .parsing
            rawEmailBody := some email.body
            emailSubject := some email.subject
            emailReceivedAt := some email.date
            emailMessageId := some email.messageId
            attachments := info }
        else p) },
     p0.id)

/-- `rfpVendor.update({ status: RESPONDED, respondedAt: new Date() })`. -/
def markResponded (s : State) (rfpVendorId now : Nat) : State :=
  { s with rfpVendors := s.rfpVendors.map (fun (rv : RfpVendor) =>
      if rv.id == rfpVendorId then
        { rv with status := .responded, respondedAt := some now }
      else rv) }

/-- `if (rfp.status === RfpStatus.SENT) await rfp.update({ status: EVALUATING })`;
the test runs on the snapshot loaded during correlation. -/
def advanceRfpIfSent (s : State) (rfp : Rfp) : State :=
  if rfp.status == .sent then
    { s with rfps := s.rfps.map (fun (r : Rfp) =>
        if r.id == rfp.id then { r with status := .evaluating } else r) }
  else s

/-- `proposal.update({ status })`. -/
def setProposalStatus (s : State) (proposalId : Nat) (st : ProposalStatus) : State :=
  { s with proposals := s.proposals.map (fun (p : Proposal) =>
      if p.id == proposalId then { p with status := st } else p) }

/-- Fresh `ProposalItem` rows from parsed items (`bulkCreate`). -/
def itemsFromParsed (proposalId : Nat) (currency : Option String) :
    Nat → List ParsedProposalItem → List ProposalItem
  | _, [] => []
  | baseId, it :: rest =>
    { id := baseId
      proposalId := proposalId
      name := it.name
      description := it.description
      quantity := it.quantity
      unitPrice := it.unitPrice
      totalPrice := it.totalPrice
      currency := currency
      specifications := it.specifications } :: itemsFromParsed proposalId currency (baseId + 1) rest

/-- First half of `applyParsedData`: write the parsed fields onto the proposal
(status `parsed`) and replace its items when the parse produced any. -/
def applyParsedFields (s : State) (proposalId : Nat) (pd : ParsedProposal) (rfp : Rfp) : State :=
  let newCurrency := strOrElseOpt pd.currency rfp.currency
  let s1 := { s with proposals := s.proposals.map (fun (p : Proposal) =>
    if p.id == proposalId then
      { p with
        totalPrice := pd.totalPrice
        currency := newCurrency
        deliveryDays := pd.deliveryDays
        paymentTerms := pd.paymentTerms
        warrantyTerms := pd.warrantyTerms
        validityPeriod := pd.validityPeriod
        additionalTerms := pd.additionalTerms
        aiSummary := some pd.summary
        aiExtractedData := some pd
        status := .parsed }
    else p) }
  if pd.items ≠ [] then
    { s1 with
      proposalItems :=
        s1.proposalItems.filter (fun i => i.proposalId ≠ proposalId) ++
          itemsFromParsed proposalId newCurrency s1.nextId pd.items
      nextId := s1.nextId + pd.items.length }
  else s1

/-- Second half of `applyParsedData`: a successful evaluation writes the five
sub-scores, overall score, strengths, weaknesses, recommendation, and status
`evaluated`. -/
def applyEvaluation (s : State) (proposalId : Nat) (ev : ProposalEvaluation) : State :=
  { s with proposals := s.proposals.map (fun (p : Proposal) =>
      if p.id == proposalId then
        { p with
          aiScore := some ev.overallScore
          aiScoreBreakdown := some ev.scoreBreakdown
          aiStrengths := some ev.strengths
          aiWeaknesses := some ev.weaknesses
          aiRecommendation := some ev.recommendation
          status := .evaluated }
      else p) }

/-- Result of processing one inbound message: the returned proposal id
(`none` when the message is dropped), the new store, and whether the
evaluation call was attempted. -/
structure IngestResult where
  proposalId : Option Nat
  state : State
  evalAttempted : Bool
deriving DecidableEq, Repr

/-- `processIncomingEmail(email)`, abstracted over the outcomes of the two AI
calls: `parseOutcome` is `parseVendorResponse` (`none` = throw after internal
retries), `evalOutcome` is `evaluateProposal` (`none` = throw, caught and
ignored). -/
def processIncomingEmail (parseOutcome : Option ParsedProposal)
    (evalOutcome : Option ProposalEvaluation) (now : Nat) (s : State)
    (email : EmailMessage) : IngestResult :=
  match resolveVendor s email.fromAddr with
  | none => ⟨none, s, false⟩
  | some vendor =>
    match resolveAssignment s vendor.id with
    | none => ⟨none, s, false⟩
    | some rv =>
      match s.rfps.find? (fun r => r.id == rv.rfpId) with
      | none => ⟨none, s, false⟩
      | some rfp =>
        let info := attachmentInfoOf email.attachments
        let up := upsertProposal s rfp.id vendor.id email info
        let s2 := markResponded up.1 rv.id now
        let s3 := advanceRfpIfSent s2 rfp
        match parseOutcome with
        | none => ⟨some up.2, setProposalStatus s3 up.2 .parse_failed, false⟩
        | some pd =>
          let s4 := applyParsedFields s3 up.2 pd rfp
          match evalOutcome with
          | none => ⟨some up.2, s4, true⟩
          | some ev => ⟨some up.2, applyEvaluation s4 up.2 ev, true⟩

/-! ## Manual proposal path (proposal.service.ts createManualProposal) -/

/-- One entry of the `items` argument of `createManualProposal`. -/
structure ManualItemInput where
  name : String
  quantity : Rat
  unitPrice : Option Rat := none
  specifications : Option (List (String × String)) := none
deriving DecidableEq, Repr

/-- The `data` argument of `createManualProposal`. -/
structure ManualProposalData where
  totalPrice : Option Rat := none
  currency : Option String := none
  deliveryDays : Option Rat := none
  paymentTerms : Option String := none
  warrantyTerms : Option String := none
  rawContent : Option String := none
  items : List ManualItemInput := []
deriving DecidableEq, Repr

/-- `item.unitPrice ? item.unitPrice * item.quantity : undefined`. -/
def manualItemTotal (it : ManualItemInput) : Option Rat :=
  match it.unitPrice with
  | some u => if u ≠ 0 then some (u * it.quantity) else none
  | none => none

/-- Fresh `ProposalItem` rows from manual items (`bulkCreate`). -/
def itemsFromManual (proposalId : Nat) (currency : Option String) :
    Nat → List ManualItemInput → List ProposalItem
  | _, [] => []
  | baseId, it :: rest =>
    { id := baseId
      proposalId := proposalId
      name := it.name
      quantity := it.quantity
      unitPrice := it.unitPrice
      totalPrice := manualItemTotal it
      currency := currency
      specifications := it.specifications } :: itemsFromManual proposalId currency (baseId + 1) rest

/-- `createManualProposal(rfpId, vendorId, data)`, abstracted over the outcome
of the `evaluateProposal` call (`none` = throw, caught and logged).  `.error ()`
covers both `NotFoundException`s.  Returns the proposal id. -/
def createManualProposal (evalOutcome : Option ProposalEvaluation) (s : State)
    (rfpId vendorId : Nat) (data : ManualProposalData) : Except Unit Nat × State :=
  match s.rfps.find? (fun r => r.id == rfpId) with
  | none => (.error (), s)
  | some rfp =>
    match s.vendors.find? (fun v => v.id == vendorId) with
    | none => (.error (), s)
    | some _ =>
      let cur := strOrElseOpt data.currency rfp.currency
      let up :=
        match s.proposals.find? (fun p => p.rfpId == rfpId && p.vendorId == vendorId) with
        | none =>
          let p : Proposal :=
            { id := s.nextId
              rfpId := rfpId
              vendorId := vendorId
              totalPrice := data.totalPrice
              currency := cur
              deliveryDays := data.deliveryDays
              paymentTerms := data.paymentTerms
              warrantyTerms := data.warrantyTerms
              rawEmailBody := data.rawContent
              status := .parsed }
          ({ s with proposals := s.proposals ++ [p], nextId := s.nextId + 1 }, s.nextId)
        | some p0 =>
          ({ s with proposals := s.proposals.map (fun (p : Proposal) =>
              if p.id == p0.id then
                { p with
                  totalPrice := data.totalPrice
                  currency := cur
                  deliveryDays := data.deliveryDays
                  paymentTerms := data.paymentTerms
                  warrantyTerms := data.warrantyTerms
                  rawEmailBody := data.rawContent
                  status := .parsed }
              else p) },
           p0.id)
      let s2 :=
        if data.items ≠ [] then
          { up.1 with
            proposalItems :=
              (up.1.proposalItems.filter (fun i => i.proposalId ≠ up.2)) ++
                itemsFromManual up.2 cur up.1.nextId data.items
            nextId := up.1.nextId + data.items.length }
        else up.1
      match evalOutcome with
      | none => (.ok up.2, s2)
      | some ev => (.ok up.2, applyEvaluation s2 up.2 ev)

/-! ## RfpService.sendToVendors (rfp.service.ts) -/

/-- The AI-generated outreach email (subject and body). -/
structure EmailContent where
  subject : String
  body : String
deriving DecidableEq, Repr

/-- `SendRfpToVendorsDto`. -/
structure SendRfpDto where
  vendorIds : List Nat
  customSubject : Option String := none
  customBody : Option String := none
deriving DecidableEq, Repr

inductive SendError where
  | notFound
  | invalidStatus
  | noValidVendors
deriving DecidableEq, Repr

deriving instance DecidableEq for Except

/-- Result of `sendToVendors`: the `sent` and `failed` counters or the thrown
error, the new store, and how many `emailService.sendEmail` calls were made. -/
structure SendResult where
  result : Except SendError (Nat × Nat)
  state : State
  sendAttempts : Nat
deriving DecidableEq, Repr

/-- Assignment upsert performed after a successful send: find-or-create the
(rfp, vendor) row, then set status `sent`, `sentAt`, and the message id. -/
def upsertAssignment (s : State) (rfpId vendorId : Nat) (messageId : String)
    (now : Nat) : State :=
  match s.rfpVendors.find? (fun rv => rv.rfpId == rfpId && rv.vendorId == vendorId) with
  | none =>
    { s with
      rfpVendors := s.rfpVendors ++
        [{ id := s.nextId
           rfpId := rfpId
           vendorId := vendorId
           status := .sent
           sentAt := some now
           emailMessageId := some messageId }]
      nextId := s.nextId + 1 }
  | some rv0 =>
    { s with rfpVendors := s.rfpVendors.map (fun (rv : RfpVendor) =>
        if rv.id == rv0.id then
          { rv with status := .sent, sentAt := some now, emailMessageId := some messageId }
        else rv) }

/-- The per-vendor body of the send loop.  `gen` is the outcome of
`generateRfpEmail` for a vendor id (`none` = throw), `send` the outcome of
`sendEmail` (`none` = throw, `some messageId` = success); both throws are
caught by the loop's `try/catch` and counted as a failure with no state
change.  Returns (state, success?, send-attempt count). -/
def sendToOneVendor (now : Nat) (gen : Nat → Option EmailContent)
    (send : Nat → Option String) (dto : SendRfpDto) (rfpId : Nat) (s : State)
    (v : Vendor) : State × Bool × Nat :=
  if !(strTruthy dto.customSubject && strTruthy dto.customBody) then
    match gen v.id with
    | none => (s, false, 0)
    | some _ =>
      match send v.id with
      | none => (s, false, 1)
      | some msgId => (upsertAssignment s rfpId v.id msgId now, true, 1)
  else
    match send v.id with
    | none => (s, false, 1)
    | some msgId => (upsertAssignment s rfpId v.id msgId now, true, 1)

/-- Accumulated outcome of the send loop. -/
structure SendAcc where
  state : State
  sent : Nat
  failed : Nat
  attempts : Nat
deriving DecidableEq, Repr

/-- `for (const vendor of vendors) { ... }`. -/
def sendLoop (now : Nat) (gen : Nat → Option EmailContent) (send : Nat → Option String)
    (dto : SendRfpDto) (rfpId : Nat) : State → List Vendor → SendAcc
  | s, [] => ⟨s, 0, 0, 0⟩
  | s, v :: rest =>
    let step := sendToOneVendor now gen send dto rfpId s v
    let acc := sendLoop now gen send dto rfpId step.1 rest
    { state := acc.state
      sent := (if step.2.1 then 1 else 0) + acc.sent
      failed := (if step.2.1 then 0 else 1) + acc.failed
      attempts := step.2.2 + acc.attempts }

/-- `RfpService.sendToVendors(id, sendDto)`. -/
def sendToVendors (now : Nat) (gen : Nat → Option EmailContent)
    (send : Nat → Option String) (s : State) (id : Nat) (dto : SendRfpDto) : SendResult :=
  match s.rfps.find? (fun r => r.id == id) with
  | none => ⟨.error .notFound, s, 0⟩
  | some rfp =>
    if rfp.status == RfpStatus.closed || rfp.status == RfpStatus.deal_sold then
      ⟨.error .invalidStatus, s, 0⟩
    else
      let vendors := s.vendors.filter (fun v => dto.vendorIds.contains v.id && !v.isDeleted)
      if vendors.length = 0 then
        ⟨.error .noValidVendors, s, 0⟩
      else
        let acc := sendLoop now gen send dto id s vendors
        let s' :=
          if 0 < acc.sent ∧ rfp.status = .draft then
            { acc.state with rfps := acc.state.rfps.map (fun (r : Rfp) =>
                if r.id == id then { r with status := .sent } else r) }
          else acc.state
        ⟨.ok (acc.sent, acc.failed), s', acc.attempts⟩

/-! ## Generic list lemmas used by several theorems -/

/-- Counting over a mapped list via a pointwise-equivalent predicate. -/
theorem countP_map_congr {α β : Type} (f : α → β) (p : β → Bool) (q : α → Bool)
    (l : List α) (h : ∀ a ∈ l, p (f a) = q a) :
    (l.map f).countP p = l.countP q := by
  induction l with
  | nil => rfl
  | cons a t ih =>
    simp only [List.map_cons, List.countP_cons, h a (by simp)]
    rw [ih (fun x hx => h x (by simp [hx]))]

/-- Counting over a mapped list can only drop when the map only ever falsifies
the predicate. -/
theorem countP_map_le {α : Type} (f : α → α) (p : α → Bool) (l : List α)
    (h : ∀ a ∈ l, p (f a) = true → p a = true) :
    (l.map f).countP p ≤ l.countP p := by
  induction l with
  | nil => simp
  | cons a t ih =>
    simp only [List.map_cons, List.countP_cons]
    have ht := ih (fun x hx => h x (by simp [hx]))
    by_cases hfa : p (f a) = true
    · have hpa := h a (by simp) hfa
      simp only [hfa, hpa, if_true]
      omega
    · simp only [Bool.not_eq_true] at hfa
      simp only [hfa, Bool.false_eq_true, if_false]
      by_cases hpa : p a = true
      · simp only [hpa, if_true]; omega
      · simp only [Bool.not_eq_true] at hpa
        simp only [hpa, Bool.false_eq_true, if_false]; omega

/-- In a list whose keys are distinct, `find?` by the key of a member returns
that member. -/
theorem find_eq_of_nodup_key {α β : Type} [DecidableEq β] (f : α → β) (l : List α)
    (hn : (l.map f).Nodup) (a : α) (ha : a ∈ l) :
    l.find? (fun x => f x == f a) = some a := by
  induction l with
  | nil => cases ha
  | cons b t ih =>
    simp only [List.map_cons, List.nodup_cons] at hn
    rcases List.mem_cons.mp ha with hab | hat
    · subst hab
      simp [List.find?]
    · by_cases hfb : f b = f a
      · exact absurd (hfb ▸ List.mem_map_of_mem f hat) hn.1
      · have : (fun x => f x == f a) b = false := by simp [hfb]
        simp only [List.find?, this]
        exact ih hn.2 hat

/-- Members with equal keys of a key-distinct list are equal. -/
theorem eq_of_mem_nodup_key {α β : Type} (f : α → β) (l : List α)
    (hn : (l.map f).Nodup) (a b : α) (ha : a ∈ l) (hb : b ∈ l) (hf : f a = f b) :
    a = b :=
  List.inj_on_of_nodup_map hn ha hb hf

/-- In a key-distinct list, exactly one member carries the key of a member. -/
theorem countP_eq_one_of_nodup_key {α β : Type} [DecidableEq β] (f : α → β)
    (l : List α) (hn : (l.map f).Nodup) (a : α) (ha : a ∈ l) :
    l.countP (fun x => f x == f a) = 1 := by
  induction l with
  | nil => cases ha
  | cons b t ih =>
    simp only [List.map_cons, List.nodup_cons] at hn
    rcases List.mem_cons.mp ha with rfl | hat
    · have h0 : t.countP (fun x => f x == f a) = 0 := by
        rw [List.countP_eq_zero]
        intro x hx
        simp only [beq_iff_eq]
        intro hfx
        exact hn.1 (hfx ▸ List.mem_map_of_mem f hx)
      simp [List.countP_cons, h0]
    · have hfb : (f b == f a) = false := by
        simp only [beq_eq_false_iff_ne, ne_eq]
        intro hfb
        exact hn.1 (hfb ▸ List.mem_map_of_mem f hat)
      simp [List.countP_cons, ih hn.2 hat, hfb]

/-! ## Claim C7: unknown sender drops the message with no state change -/

/-- Claim C7: for every inbound message whose extracted sender address (the
text inside angle brackets of the from header if present, else the raw from
string) matches no vendor row with `isDeleted = false`, `processIncomingEmail`
returns null and the store is completely unchanged (no Response, Assignment,
Request, or Vendor row created or modified), and no evaluation is attempted. -/
theorem c7_unknown_sender_no_state_change (parseOutcome : Option ParsedProposal)
    (evalOutcome : Option ProposalEvaluation) (now : Nat) (s : State)
    (email : EmailMessage)
    (h : ∀ v ∈ s.vendors, v.isDeleted = false → v.email ≠ extractEmailAddress email.fromAddr) :
    processIncomingEmail parseOutcome evalOutcome now s email = ⟨none, s, false⟩ := by
  have hrv : resolveVendor s email.fromAddr = none := by
    unfold resolveVendor
    rw [List.find?_eq_none]
    intro v hv
    simp only [Bool.and_eq_true, beq_iff_eq, not_and]
    intro he hd
    exact absurd he (h v hv hd)
  unfold processIncomingEmail
  rw [hrv]

def c7State : State :=
  { vendors := [{ id := 1, companyName := "A", contactPerson := "a", email := "a@x.com" },
                { id := 2, companyName := "B", contactPerson := "b", email := "b@x.com",
                  isDeleted := true }]
    rfps := [{ id := 10, title := "R", description := "d", status := .sent }]
    rfpVendors := [{ id := 20, rfpId := 10, vendorId := 1, status := .sent, sentAt := some 5 }]
    nextId := 100 }

def c7Email : EmailMessage :=
  { messageId := "m1", fromAddr := "B <b@x.com>", subject := "s", body := "b", date := 50,
    attachments := [] }

theorem c7_unknown_sender_no_state_change_witness :
    (∀ v ∈ c7State.vendors, v.isDeleted = false →
        v.email ≠ extractEmailAddress c7Email.fromAddr) ∧
    processIncomingEmail none none 51 c7State c7Email = ⟨none, c7State, false⟩ :=
  ⟨by decide, c7_unknown_sender_no_state_change none none 51 c7State c7Email (by decide)⟩

/-! ## Claim C3: winner selection exclusivity -/

/-- Claim C3: for a Request with at least two Responses, after `selectWinner x`
for a Response `x` of that Request, exactly one of its Responses (namely `x`)
has status `selected`, every other Response of the Request has status
`rejected`, and the Request's status is `deal_sold`, whatever the prior
statuses were. -/
theorem c3_selection_exclusivity (s : State) (x : Proposal)
    (hx : x ∈ s.proposals)
    (hids : (s.proposals.map Proposal.id).Nodup)
    (hcount : 2 ≤ (s.proposals.filter (fun p => p.rfpId == x.rfpId)).length) :
    (selectWinner s x.id).1 = .ok x.id ∧
    ((selectWinner s x.id).2.proposals.countP
      (fun p => p.rfpId == x.rfpId && p.status == ProposalStatus.selected)) = 1 ∧
    (∀ p ∈ (selectWinner s x.id).2.proposals, p.rfpId = x.rfpId →
      (if p.id = x.id then p.status = .selected else p.status = .rejected)) ∧
    (∀ r ∈ (selectWinner s x.id).2.rfps, r.id = x.rfpId → r.status = .deal_sold) := by
  have hfind : s.proposals.find? (fun p => p.id == x.id) = some x :=
    find_eq_of_nodup_key Proposal.id s.proposals hids x hx
  unfold selectWinner
  rw [hfind]
  simp only [List.map_map]
  refine ⟨by trivial, ?_, ?_, ?_⟩
  · rw [countP_map_congr _ _ (fun p => p.id == x.id)]
    · exact countP_eq_one_of_nodup_key Proposal.id s.proposals hids x hx
    · intro a ha
      by_cases h2 : a.id = x.id
      · have hax : a = x := eq_of_mem_nodup_key Proposal.id s.proposals hids a x ha hx h2
        subst hax
        simp
      · have hb2 : (a.id == x.id) = false := beq_eq_false_iff_ne.mpr h2
        by_cases h1 : a.rfpId = x.rfpId
        · simp [Function.comp, beq_iff_eq, h1, hb2, h2]
        · have hb1 : (a.rfpId == x.rfpId) = false := beq_eq_false_iff_ne.mpr h1
          simp [Function.comp, h1, h2, hb1, hb2]
  · intro p hp hpr
    obtain ⟨a, ha, rfl⟩ := List.mem_map.mp hp
    by_cases h2 : a.id = x.id
    · have hax : a = x := eq_of_mem_nodup_key Proposal.id s.proposals hids a x ha hx h2
      subst hax
      simp
    · by_cases h1 : a.rfpId = x.rfpId
      · simp [Function.comp, beq_iff_eq, h1, h2]
      · simp [Function.comp, beq_iff_eq, h1, h2] at hpr
  · intro r hr hrid
    obtain ⟨a, ha, rfl⟩ := List.mem_map.mp hr
    by_cases h1 : a.id = x.rfpId
    · simp [beq_iff_eq, h1]
    · simp [beq_iff_eq, h1] at hrid

def c3State : State :=
  { rfps := [{ id := 10, title := "R", description := "d", status := .evaluating }]
    proposals := [{ id := 100, rfpId := 10, vendorId := 1, status := .parsed },
                  { id := 101, rfpId := 10, vendorId := 2, status := .evaluated },
                  { id := 102, rfpId := 10, vendorId := 3, status := .received }]
    nextId := 200 }

def c3Winner : Proposal := { id := 101, rfpId := 10, vendorId := 2, status := .evaluated }

theorem c3_selection_exclusivity_witness :
    (c3Winner ∈ c3State.proposals ∧
      (c3State.proposals.map Proposal.id).Nodup ∧
      2 ≤ (c3State.proposals.filter (fun p => p.rfpId == c3Winner.rfpId)).length) ∧
    ((selectWinner c3State c3Winner.id).1 = .ok c3Winner.id ∧
      ((selectWinner c3State c3Winner.id).2.proposals.countP
        (fun p => p.rfpId == c3Winner.rfpId && p.status == ProposalStatus.selected)) = 1 ∧
      (∀ p ∈ (selectWinner c3State c3Winner.id).2.proposals, p.rfpId = c3Winner.rfpId →
        (if p.id = c3Winner.id then p.status = .selected else p.status = .rejected)) ∧
      (∀ r ∈ (selectWinner c3State c3Winner.id).2.rfps, r.id = c3Winner.rfpId →
        r.status = .deal_sold)) :=
  ⟨⟨by decide, by decide, by decide⟩,
    c3_selection_exclusivity c3State c3Winner (by decide) (by decide) (by decide)⟩

/-! ## Frame lemmas for the ingestion phases -/

theorem markResponded_proposals (s : State) (i n : Nat) :
    (markResponded s i n).proposals = s.proposals := rfl

theorem markResponded_rfps (s : State) (i n : Nat) :
    (markResponded s i n).rfps = s.rfps := rfl

theorem advanceRfpIfSent_proposals (s : State) (r : Rfp) :
    (advanceRfpIfSent s r).proposals = s.proposals := by
  unfold advanceRfpIfSent; split <;> rfl

theorem advanceRfpIfSent_rfpVendors (s : State) (r : Rfp) :
    (advanceRfpIfSent s r).rfpVendors = s.rfpVendors := by
  unfold advanceRfpIfSent; split <;> rfl

theorem setProposalStatus_rfps (s : State) (pid : Nat) (st : ProposalStatus) :
    (setProposalStatus s pid st).rfps = s.rfps := rfl

theorem setProposalStatus_rfpVendors (s : State) (pid : Nat) (st : ProposalStatus) :
    (setProposalStatus s pid st).rfpVendors = s.rfpVendors := rfl

theorem applyParsedFields_rfps (s : State) (pid : Nat) (pd : ParsedProposal) (rfp : Rfp) :
    (applyParsedFields s pid pd rfp).rfps = s.rfps := by
  unfold applyParsedFields; split <;> rfl

theorem applyParsedFields_rfpVendors (s : State) (pid : Nat) (pd : ParsedProposal) (rfp : Rfp) :
    (applyParsedFields s pid pd rfp).rfpVendors = s.rfpVendors := by
  unfold applyParsedFields; split <;> rfl

theorem applyEvaluation_rfps (s : State) (pid : Nat) (ev : ProposalEvaluation) :
    (applyEvaluation s pid ev).rfps = s.rfps := rfl

theorem applyEvaluation_rfpVendors (s : State) (pid : Nat) (ev : ProposalEvaluation) :
    (applyEvaluation s pid ev).rfpVendors = s.rfpVendors := rfl

theorem upsertProposal_rfps (s : State) (rid vid : Nat) (e : EmailMessage)
    (info : List AttachmentInfo) :
    (upsertProposal s rid vid e info).1.rfps = s.rfps := by
  unfold upsertProposal; split <;> rfl

theorem upsertProposal_rfpVendors (s : State) (rid vid : Nat) (e : EmailMessage)
    (info : List AttachmentInfo) :
    (upsertProposal s rid vid e info).1.rfpVendors = s.rfpVendors := by
  unfold upsertProposal; split <;> rfl

/-- The row produced by the Response upsert: it carries the upserted pair, the
message's raw fields, and status `parsing`. -/
theorem upsertProposal_spec (s : State) (rid vid : Nat) (e : EmailMessage)
    (info : List AttachmentInfo) :
    ∃ p ∈ (upsertProposal s rid vid e info).1.proposals,
      p.id = (upsertProposal s rid vid e info).2 ∧ p.rfpId = rid ∧ p.vendorId = vid ∧
      p.status = .parsing ∧ p.rawEmailBody = some e.body ∧
      p.emailSubject = some e.subject ∧ p.emailReceivedAt = some e.date ∧
      p.emailMessageId = some e.messageId ∧ p.attachments = info := by
  unfold upsertProposal
  cases hf : s.proposals.find? (fun p => p.rfpId == rid && p.vendorId == vid) with
  | none =>
    refine ⟨_, List.mem_append_right _ (List.mem_singleton.mpr rfl), ?_⟩
    simp
  | some p0 =>
    have hm : p0 ∈ s.proposals := List.mem_of_find?_eq_some hf
    have hp0 := List.find?_some hf
    simp only [Bool.and_eq_true, beq_iff_eq] at hp0
    refine ⟨_, List.mem_map_of_mem _ hm, ?_⟩
    simp [hp0.1, hp0.2]

/-! ## Claim C5: sendToVendors rejects closed and deal_sold requests -/

/-- Claim C5: whenever the Request's status is `closed` or `deal_sold`,
`sendToVendors` fails with the invalid-transition error (`BadRequestException`
"Cannot send a closed or awarded RFP"), performs no sends (zero `sendEmail`
calls), and changes no state. -/
theorem c5_send_blocked_on_closed_or_sold (now : Nat) (gen : Nat → Option EmailContent)
    (send : Nat → Option String) (s : State) (id : Nat) (dto : SendRfpDto) (rfp : Rfp)
    (hfind : s.rfps.find? (fun r => r.id == id) = some rfp)
    (hst : rfp.status = .closed ∨ rfp.status = .deal_sold) :
    sendToVendors now gen send s id dto = ⟨.error .invalidStatus, s, 0⟩ := by
  unfold sendToVendors
  rw [hfind]
  rcases hst with h | h <;> simp [h]

def c5State : State :=
  { vendors := [{ id := 1, companyName := "A", contactPerson := "a", email := "a@x.com" }]
    rfps := [{ id := 10, title := "R", description := "d", status := .deal_sold }]
    nextId := 100 }

def c5Rfp : Rfp := { id := 10, title := "R", description := "d", status := .deal_sold }

theorem c5_send_blocked_on_closed_or_sold_witness :
    (c5State.rfps.find? (fun r => r.id == 10) = some c5Rfp ∧
      (c5Rfp.status = .closed ∨ c5Rfp.status = .deal_sold)) ∧
    sendToVendors 7 (fun _ => some ⟨"s", "b"⟩) (fun _ => some "mid") c5State 10
        { vendorIds := [1] } = ⟨.error .invalidStatus, c5State, 0⟩ :=
  ⟨⟨by decide, Or.inr (by decide)⟩,
    c5_send_blocked_on_closed_or_sold 7 (fun _ => some ⟨"s", "b"⟩) (fun _ => some "mid")
      c5State 10 { vendorIds := [1] } c5Rfp (by decide) (Or.inr (by decide))⟩

/-! ## Claim C2: parse failure still commits the assignment and request updates -/

/-- Claim C2: when the AI parse step fails for a matched inbound message, the
Response row exists with status `parse_failed`, the matched Assignment has
status `responded` with `respondedAt` set to the processing time, the parent
Request has advanced from `sent` to `evaluating`, no evaluation is attempted,
and the Assignment/Request updates do not depend on the parse or evaluation
outcome at all (they happen before parsing is attempted). -/
theorem c2_parse_failure_unconditional_side_effects
    (evalOutcome : Option ProposalEvaluation) (now : Nat) (s : State)
    (email : EmailMessage) (vendor : Vendor) (rv : RfpVendor) (rfp : Rfp)
    (hv : resolveVendor s email.fromAddr = some vendor)
    (ha : resolveAssignment s vendor.id = some rv)
    (hr : s.rfps.find? (fun r => r.id == rv.rfpId) = some rfp) :
    (processIncomingEmail none evalOutcome now s email).evalAttempted = false ∧
    (∃ pid, (processIncomingEmail none evalOutcome now s email).proposalId = some pid ∧
      ∃ p ∈ (processIncomingEmail none evalOutcome now s email).state.proposals,
        p.id = pid ∧ p.rfpId = rfp.id ∧ p.vendorId = vendor.id ∧
        p.status = .parse_failed) ∧
    (∀ rv' ∈ (processIncomingEmail none evalOutcome now s email).state.rfpVendors,
      rv'.id = rv.id → rv'.status = .responded ∧ rv'.respondedAt = some now) ∧
    (rv ∈ s.rfpVendors →
      ∃ rv' ∈ (processIncomingEmail none evalOutcome now s email).state.rfpVendors,
        rv'.id = rv.id) ∧
    (rfp.status = .sent →
      ∀ r ∈ (processIncomingEmail none evalOutcome now s email).state.rfps,
        r.id = rfp.id → r.status = .evaluating) ∧
    (∀ po eo,
      (processIncomingEmail po eo now s email).state.rfpVendors =
        (processIncomingEmail none evalOutcome now s email).state.rfpVendors ∧
      (processIncomingEmail po eo now s email).state.rfps =
        (processIncomingEmail none evalOutcome now s email).state.rfps) := by
  unfold processIncomingEmail
  simp only [hv, ha, hr]
  refine ⟨by trivial, ?_, ?_, ?_, ?_, ?_⟩
  · obtain ⟨p, hp, hpid, hprf, hpv, hst, -⟩ :=
      upsertProposal_spec s rfp.id vendor.id email (attachmentInfoOf email.attachments)
    refine ⟨(upsertProposal s rfp.id vendor.id email (attachmentInfoOf email.attachments)).2,
      rfl, ?_⟩
    set up := upsertProposal s rfp.id vendor.id email (attachmentInfoOf email.attachments)
    refine ⟨{ p with status := .parse_failed }, ?_, by simp [hpid], by simp [hprf],
      by simp [hpv], by simp⟩
    show _ ∈ (setProposalStatus (advanceRfpIfSent (markResponded up.1 rv.id now) rfp)
      up.2 .parse_failed).proposals
    unfold setProposalStatus
    simp only [advanceRfpIfSent_proposals, markResponded_proposals]
    have : ({ p with status := ProposalStatus.parse_failed } : Proposal) =
        (fun (q : Proposal) => if q.id == up.2 then { q with status := .parse_failed }
          else q) p := by
      simp [hpid]
    rw [this]
    exact List.mem_map_of_mem _ hp
  · intro rv' hrv' hid
    simp only [setProposalStatus_rfpVendors, advanceRfpIfSent_rfpVendors] at hrv'
    unfold markResponded at hrv'
    simp only [upsertProposal_rfpVendors] at hrv'
    obtain ⟨a, _, rfl⟩ := List.mem_map.mp hrv'
    by_cases hai : a.id = rv.id
    · simp [hai]
    · have : (a.id == rv.id) = false := beq_eq_false_iff_ne.mpr hai
      rw [this] at hid ⊢
      exact absurd hid hai
  · intro hmem
    refine ⟨{ rv with status := .responded, respondedAt := some now }, ?_, rfl⟩
    simp only [setProposalStatus_rfpVendors, advanceRfpIfSent_rfpVendors]
    unfold markResponded
    simp only [upsertProposal_rfpVendors]
    have : ({ rv with status := RfpVendorStatus.responded, respondedAt := some now } :
        RfpVendor) =
        (fun (a : RfpVendor) => if a.id == rv.id then
          { a with status := .responded, respondedAt := some now } else a) rv := by
      simp
    rw [this]
    exact List.mem_map_of_mem _ hmem
  · intro hsent r hrmem hrid
    simp only [setProposalStatus_rfps] at hrmem
    unfold advanceRfpIfSent at hrmem
    rw [if_pos (by simp [hsent])] at hrmem
    simp only [markResponded_rfps, upsertProposal_rfps] at hrmem
    obtain ⟨a, _, rfl⟩ := List.mem_map.mp hrmem
    by_cases hai : a.id = rfp.id
    · simp [hai]
    · have : (a.id == rfp.id) = false := beq_eq_false_iff_ne.mpr hai
      rw [this] at hrid ⊢
      exact absurd hrid hai
  · intro po eo
    cases po with
    | none =>
      cases eo <;>
        simp [setProposalStatus_rfpVendors, setProposalStatus_rfps]
    | some pd =>
      cases eo <;>
        simp [setProposalStatus_rfpVendors, setProposalStatus_rfps,
          applyEvaluation_rfpVendors, applyEvaluation_rfps,
          applyParsedFields_rfpVendors, applyParsedFields_rfps]

def c2Vendor : Vendor := { id := 1, companyName := "A", contactPerson := "a", email := "a@x.com" }

def c2Rv : RfpVendor := { id := 20, rfpId := 10, vendorId := 1, status := .sent, sentAt := some 5 }

def c2Rfp : Rfp := { id := 10, title := "R", description := "d", status := .sent }

def c2State : State :=
  { vendors := [c2Vendor]
    rfps := [c2Rfp]
    rfpVendors := [c2Rv]
    nextId := 100 }

def c2Email : EmailMessage :=
  { messageId := "m1", fromAddr := "A Corp <a@x.com>", subject := "re: RFP", body := "offer",
    date := 50, attachments := [] }

theorem c2_parse_failure_unconditional_side_effects_witness :
    (resolveVendor c2State c2Email.fromAddr = some c2Vendor ∧
      resolveAssignment c2State c2Vendor.id = some c2Rv ∧
      c2State.rfps.find? (fun r => r.id == c2Rv.rfpId) = some c2Rfp) ∧
    ((processIncomingEmail none none 51 c2State c2Email).evalAttempted = false ∧
      (∃ pid, (processIncomingEmail none none 51 c2State c2Email).proposalId = some pid ∧
        ∃ p ∈ (processIncomingEmail none none 51 c2State c2Email).state.proposals,
          p.id = pid ∧ p.rfpId = c2Rfp.id ∧ p.vendorId = c2Vendor.id ∧
          p.status = .parse_failed) ∧
      (∀ rv' ∈ (processIncomingEmail none none 51 c2State c2Email).state.rfpVendors,
        rv'.id = c2Rv.id → rv'.status = .responded ∧ rv'.respondedAt = some 51) ∧
      (c2Rv ∈ c2State.rfpVendors →
        ∃ rv' ∈ (processIncomingEmail none none 51 c2State c2Email).state.rfpVendors,
          rv'.id = c2Rv.id) ∧
      (c2Rfp.status = .sent →
        ∀ r ∈ (processIncomingEmail none none 51 c2State c2Email).state.rfps,
          r.id = c2Rfp.id → r.status = .evaluating) ∧
      (∀ po eo,
        (processIncomingEmail po eo 51 c2State c2Email).state.rfpVendors =
          (processIncomingEmail none none 51 c2State c2Email).state.rfpVendors ∧
        (processIncomingEmail po eo 51 c2State c2Email).state.rfps =
          (processIncomingEmail none none 51 c2State c2Email).state.rfps)) :=
  ⟨⟨by decide, by decide, by decide⟩,
    c2_parse_failure_unconditional_side_effects none 51 c2State c2Email c2Vendor c2Rv c2Rfp
      (by decide) (by decide) (by decide)⟩

/-! ## Claim C10: the manual path never touches Assignments or the Request -/

/-- Claim C10: `createManualProposal` on an existing Request and vendor leaves
every Assignment row (hence its status and respondedAt) and every Request row
(hence the parent Request's status) unchanged, while upserting the Response for
the (request, vendor) pair with status `parsed`, or `evaluated` after a
successful evaluation. -/
theorem c10_manual_path_leaves_assignment_and_request
    (evalOutcome : Option ProposalEvaluation) (s : State) (rfpId vendorId : Nat)
    (data : ManualProposalData) (rfp : Rfp) (vendor : Vendor)
    (hr : s.rfps.find? (fun r => r.id == rfpId) = some rfp)
    (hv : s.vendors.find? (fun v => v.id == vendorId) = some vendor) :
    (createManualProposal evalOutcome s rfpId vendorId data).2.rfpVendors = s.rfpVendors ∧
    (createManualProposal evalOutcome s rfpId vendorId data).2.rfps = s.rfps ∧
    (∃ pid, (createManualProposal evalOutcome s rfpId vendorId data).1 = .ok pid ∧
      ∃ p ∈ (createManualProposal evalOutcome s rfpId vendorId data).2.proposals,
        p.id = pid ∧ p.rfpId = rfpId ∧ p.vendorId = vendorId ∧
        p.status = (if evalOutcome.isSome then .evaluated else .parsed)) := by
  unfold createManualProposal
  simp only [hr, hv]
  cases hfp : s.proposals.find? (fun p => p.rfpId == rfpId && p.vendorId == vendorId) with
  | none =>
    cases evalOutcome with
    | none =>
      refine ⟨?_, ?_, s.nextId, by simp [hfp], ?_⟩
      · simp [hfp, apply_ite State.rfpVendors]
      · simp [hfp, apply_ite State.rfps]
      · simp only [hfp, apply_ite State.proposals]
        simp only [ite_self]
        refine ⟨_, List.mem_append_right _ (List.mem_singleton.mpr rfl), ?_⟩
        simp
    | some ev =>
      refine ⟨?_, ?_, s.nextId, by simp [hfp], ?_⟩
      · simp [hfp, applyEvaluation_rfpVendors, apply_ite State.rfpVendors]
      · simp [hfp, applyEvaluation_rfps, apply_ite State.rfps]
      · simp only [hfp, applyEvaluation, apply_ite State.proposals, apply_ite State.nextId]
        simp only [ite_self]
        refine ⟨_, List.mem_map_of_mem _ (List.mem_append_right _ (List.mem_singleton.mpr rfl)), ?_⟩
        simp
  | some p0 =>
    have hp0 := List.find?_some hfp
    have hm0 : p0 ∈ s.proposals := List.mem_of_find?_eq_some hfp
    simp only [Bool.and_eq_true, beq_iff_eq] at hp0
    cases evalOutcome with
    | none =>
      refine ⟨?_, ?_, p0.id, by simp [hfp], ?_⟩
      · simp [hfp, apply_ite State.rfpVendors]
      · simp [hfp, apply_ite State.rfps]
      · simp only [hfp, apply_ite State.proposals]
        simp only [ite_self]
        refine ⟨_, List.mem_map_of_mem _ hm0, ?_⟩
        simp [hp0.1, hp0.2]
    | some ev =>
      refine ⟨?_, ?_, p0.id, by simp [hfp], ?_⟩
      · simp [hfp, applyEvaluation_rfpVendors, apply_ite State.rfpVendors]
      · simp [hfp, applyEvaluation_rfps, apply_ite State.rfps]
      · simp only [hfp, applyEvaluation, apply_ite State.proposals, apply_ite State.nextId]
        simp only [ite_self]
        refine ⟨_, List.mem_map_of_mem _ (List.mem_map_of_mem _ hm0), ?_⟩
        simp [hp0.1, hp0.2]

def c10Rfp : Rfp := { id := 10, title := "R", description := "d", status := .sent }

def c10Vendor : Vendor := { id := 1, companyName := "A", contactPerson := "a", email := "a@x.com" }

def c10State : State :=
  { vendors := [c10Vendor]
    rfps := [c10Rfp]
    rfpVendors := [{ id := 20, rfpId := 10, vendorId := 1, status := .sent, sentAt := some 5 }]
    nextId := 100 }

def c10Data : ManualProposalData :=
  { totalPrice := some 500, items := [{ name := "x", quantity := 3, unitPrice := some 5 }] }

theorem c10_manual_path_leaves_assignment_and_request_witness :
    (c10State.rfps.find? (fun r => r.id == 10) = some c10Rfp ∧
      c10State.vendors.find? (fun v => v.id == 1) = some c10Vendor) ∧
    ((createManualProposal none c10State 10 1 c10Data).2.rfpVendors = c10State.rfpVendors ∧
      (createManualProposal none c10State 10 1 c10Data).2.rfps = c10State.rfps ∧
      (∃ pid, (createManualProposal none c10State 10 1 c10Data).1 = .ok pid ∧
        ∃ p ∈ (createManualProposal none c10State 10 1 c10Data).2.proposals,
          p.id = pid ∧ p.rfpId = 10 ∧ p.vendorId = 1 ∧
          p.status = (if (none : Option ProposalEvaluation).isSome
            then .evaluated else .parsed))) :=
  ⟨⟨by decide, by decide⟩,
    c10_manual_path_leaves_assignment_and_request none c10State 10 1 c10Data c10Rfp c10Vendor
      (by decide) (by decide)⟩

/-! ## Claim C6: retry behaviour of the AI JSON generation -/

/-- Peeling one step off a shifted `range`-map. -/
theorem map_range_succ_shift (g : Nat → Nat) (a k : Nat) :
    g a :: (List.range k).map (fun i => g (a + 1 + i)) =
      (List.range (k + 1)).map (fun i => g (a + i)) := by
  rw [List.range_succ_eq_map, List.map_cons, List.map_map]
  refine congrArg₂ _ (congrArg g (Nat.add_zero a).symm) ?_
  refine List.map_congr_left ?_
  intro i _
  show g (a + 1 + i) = g (a + (i + 1))
  exact congrArg g (by omega)

/-- After `k` rate-limited attempts, a success on attempt `attempt + k` returns
the value, having slept the scheduled delay for each rate-limited attempt. -/
theorem generateJSONGo_success {T : Type} (outcomes : Nat → AiAttempt T) (v : T) :
    ∀ (k fuel attempt : Nat) (lastErr : Option String), k < fuel →
    (∀ i, i < k → ∃ m, outcomes (attempt + i) = .failure m ∧ isRateLimitError m = true) →
    outcomes (attempt + k) = .success v →
    generateJSONGo outcomes fuel attempt lastErr =
      (.ok v, (List.range k).map (fun i => backoffForAttempt (attempt + i))) := by
  intro k
  induction k with
  | zero =>
    intro fuel attempt lastErr hk _ hsucc
    obtain ⟨f, rfl⟩ := Nat.exists_eq_add_of_lt hk
    simp only [Nat.add_zero] at hsucc
    simp [generateJSONGo, hsucc]
  | succ k ih =>
    intro fuel attempt lastErr hk hrate hsucc
    obtain ⟨m, hm, hrm⟩ := hrate 0 (Nat.succ_pos k)
    simp only [Nat.add_zero] at hm
    obtain ⟨f, rfl⟩ := Nat.exists_eq_add_of_lt hk
    have hrec := ih (k + 1 + f) (attempt + 1) (some m)
      (by omega)
      (fun i hi => by
        obtain ⟨m', hm', hrm'⟩ := hrate (i + 1) (by omega)
        exact ⟨m', by rw [show attempt + 1 + i = attempt + (i + 1) by omega]; exact hm', hrm'⟩)
      (by rw [show attempt + 1 + k = attempt + (k + 1) by omega]; exact hsucc)
    show generateJSONGo outcomes (k + 1 + f + 1) attempt lastErr = _
    simp only [generateJSONGo, hm, hrm, if_true]
    rw [hrec]
    exact congrArg _ (map_range_succ_shift backoffForAttempt attempt k)

/-- After `k` rate-limited attempts, a non-rate-limit failure on attempt
`attempt + k` is propagated at once with no further retries. -/
theorem generateJSONGo_immediate {T : Type} (outcomes : Nat → AiAttempt T) (msg : String) :
    ∀ (k fuel attempt : Nat) (lastErr : Option String), k < fuel →
    (∀ i, i < k → ∃ m, outcomes (attempt + i) = .failure m ∧ isRateLimitError m = true) →
    outcomes (attempt + k) = .failure msg → isRateLimitError msg = false →
    generateJSONGo outcomes fuel attempt lastErr =
      (.error (some msg), (List.range k).map (fun i => backoffForAttempt (attempt + i))) := by
  intro k
  induction k with
  | zero =>
    intro fuel attempt lastErr hk _ hfail hnr
    obtain ⟨f, rfl⟩ := Nat.exists_eq_add_of_lt hk
    simp only [Nat.add_zero] at hfail
    simp [generateJSONGo, hfail, hnr]
  | succ k ih =>
    intro fuel attempt lastErr hk hrate hfail hnr
    obtain ⟨m, hm, hrm⟩ := hrate 0 (Nat.succ_pos k)
    simp only [Nat.add_zero] at hm
    obtain ⟨f, rfl⟩ := Nat.exists_eq_add_of_lt hk
    have hrec := ih (k + 1 + f) (attempt + 1) (some m)
      (by omega)
      (fun i hi => by
        obtain ⟨m', hm', hrm'⟩ := hrate (i + 1) (by omega)
        exact ⟨m', by rw [show attempt + 1 + i = attempt + (i + 1) by omega]; exact hm', hrm'⟩)
      (by rw [show attempt + 1 + k = attempt + (k + 1) by omega]; exact hfail) hnr
    show generateJSONGo outcomes (k + 1 + f + 1) attempt lastErr = _
    simp only [generateJSONGo, hm, hrm, if_true]
    rw [hrec]
    exact congrArg _ (map_range_succ_shift backoffForAttempt attempt k)

/-- When every available attempt is rate-limited, the loop exhausts its budget,
sleeps after every attempt (the schedule capped at its last element), and
surfaces the last error. -/
theorem generateJSONGo_exhaust {T : Type} (outcomes : Nat → AiAttempt T) :
    ∀ (fuel attempt : Nat) (lastErr : Option String) (msgs : Nat → String), 0 < fuel →
    (∀ i, i < fuel → outcomes (attempt + i) = .failure (msgs i) ∧
      isRateLimitError (msgs i) = true) →
    generateJSONGo outcomes fuel attempt lastErr =
      (.error (some (msgs (fuel - 1))),
        (List.range fuel).map (fun i => backoffForAttempt (attempt + i))) := by
  intro fuel
  induction fuel with
  | zero => intro _ _ _ h; omega
  | succ f ih =>
    intro attempt lastErr msgs _ hrate
    obtain ⟨hm, hrm⟩ := hrate 0 (Nat.succ_pos f)
    simp only [Nat.add_zero] at hm
    cases f with
    | zero =>
      simp [generateJSONGo, hm, hrm, List.range_succ]
    | succ f' =>
      have hrec := ih (attempt + 1) (some (msgs 0)) (fun i => msgs (i + 1))
        (Nat.succ_pos f')
        (fun i hi => by
          obtain ⟨hm', hrm'⟩ := hrate (i + 1) (by omega)
          exact ⟨by rw [show attempt + 1 + i = attempt + (i + 1) by omega]; exact hm', hrm'⟩)
      show generateJSONGo outcomes (f' + 1 + 1) attempt lastErr = _
      rw [generateJSONGo]
      simp only [hm, hrm, if_true]
      rw [hrec]
      refine congrArg₂ _ ?_ ?_
      · exact congrArg (fun n => Except.error (some (msgs n))) (by omega)
      · exact map_range_succ_shift backoffForAttempt attempt (f' + 1)

/-- Claim C6: in `generateJSON`, rate-limit-class errors are retried with the
fixed delay schedule 1s/30s/60s/90s indexed by attempt number and capped at the
last element, for at most `AI_MAX_RETRIES = 5` attempts by default, after which
the last error is surfaced; a success after rate-limited attempts is returned;
any non-rate-limit error is propagated immediately without further attempts or
sleeps. -/
theorem c6_generateJSON_retry_schedule {T : Type} (outcomes : Nat → AiAttempt T) :
    (∀ k (msg : String), k < AI_MAX_RETRIES →
      (∀ i, i < k → ∃ m, outcomes i = .failure m ∧ isRateLimitError m = true) →
      outcomes k = .failure msg → isRateLimitError msg = false →
      generateJSON outcomes AI_MAX_RETRIES =
        (.error (some msg), (List.range k).map backoffForAttempt)) ∧
    (∀ k (v : T), k < AI_MAX_RETRIES →
      (∀ i, i < k → ∃ m, outcomes i = .failure m ∧ isRateLimitError m = true) →
      outcomes k = .success v →
      generateJSON outcomes AI_MAX_RETRIES =
        (.ok v, (List.range k).map backoffForAttempt)) ∧
    (∀ msgs : Nat → String,
      (∀ i, i < AI_MAX_RETRIES → outcomes i = .failure (msgs i) ∧
        isRateLimitError (msgs i) = true) →
      generateJSON outcomes AI_MAX_RETRIES =
        (.error (some (msgs 4)), [1000, 30000, 60000, 90000, 90000])) := by
  have hmap : ∀ k, (List.range k).map (fun i => backoffForAttempt (0 + i)) =
      (List.range k).map backoffForAttempt := by
    intro k
    refine List.map_congr_left ?_
    intro i _
    rw [Nat.zero_add]
  refine ⟨?_, ?_, ?_⟩
  · intro k msg hk hrate hfail hnr
    unfold generateJSON
    rw [generateJSONGo_immediate outcomes msg k AI_MAX_RETRIES 0 none hk
      (by intro i hi; rw [Nat.zero_add]; exact hrate i hi) (by rw [Nat.zero_add]; exact hfail) hnr]
    rw [hmap]
  · intro k v hk hrate hsucc
    unfold generateJSON
    rw [generateJSONGo_success outcomes v k AI_MAX_RETRIES 0 none hk
      (by intro i hi; rw [Nat.zero_add]; exact hrate i hi) (by rw [Nat.zero_add]; exact hsucc)]
    rw [hmap]
  · intro msgs hrate
    unfold generateJSON
    rw [generateJSONGo_exhaust outcomes AI_MAX_RETRIES 0 none msgs (by decide)
      (by intro i hi; rw [Nat.zero_add]; exact hrate i hi)]
    rw [hmap]
    rfl

def c6OutA : Nat → AiAttempt Nat :=
  fun i => .failure (if i < 2 then "429 Too Many Requests" else "invalid api key")

def c6OutB : Nat → AiAttempt Nat :=
  fun i => if i < 3 then .failure "Resource exhausted" else .success 7

def c6OutC : Nat → AiAttempt Nat := fun _ => .failure "Resource exhausted"

theorem c6_generateJSON_retry_schedule_witness :
    ((2 < AI_MAX_RETRIES ∧ isRateLimitError "invalid api key" = false) ∧
      generateJSON c6OutA AI_MAX_RETRIES =
        (.error (some "invalid api key"), [1000, 30000])) ∧
    (3 < AI_MAX_RETRIES ∧
      generateJSON c6OutB AI_MAX_RETRIES = (.ok 7, [1000, 30000, 60000])) ∧
    generateJSON c6OutC AI_MAX_RETRIES =
      (.error (some "Resource exhausted"), [1000, 30000, 60000, 90000, 90000]) := by
  refine ⟨⟨⟨by decide, by decide⟩, ?_⟩, ⟨by decide, ?_⟩, ?_⟩
  · rw [(c6_generateJSON_retry_schedule c6OutA).1 2 "invalid api key" (by decide)
      (fun i hi => ⟨"429 Too Many Requests", by
        unfold c6OutA; rw [if_pos hi], by decide⟩) (by decide) (by decide)]
    rfl
  · rw [(c6_generateJSON_retry_schedule c6OutB).2.1 3 7 (by decide)
      (fun i hi => ⟨"Resource exhausted", by
        unfold c6OutB; rw [if_pos hi], by decide⟩) (by decide)]
    rfl
  · rw [(c6_generateJSON_retry_schedule c6OutC).2.2 (fun _ => "Resource exhausted")
      (fun i _ => ⟨rfl, (by decide : isRateLimitError "Resource exhausted" = true)⟩)]

/-! ## Claim C8: vendor soft-delete / unique-email invariant -/

/-- At most one non-deleted vendor row per email address. -/
def atMostOnePerEmail (vendors : List Vendor) : Prop :=
  ∀ e : String, vendors.countP (fun v => !v.isDeleted && v.email == e) ≤ 1

/-- `VendorService.create` preserves the unique-email invariant. -/
theorem create_preserves_invariant (s : State) (dto : CreateVendorDto)
    (hids : (s.vendors.map Vendor.id).Nodup)
    (hinv : atMostOnePerEmail s.vendors) :
    atMostOnePerEmail (VendorService.create s dto).2.vendors := by
  unfold VendorService.create
  cases hnd : s.vendors.find? (fun v => v.email == dto.email && v.isDeleted == false) with
  | some w => exact hinv
  | none =>
    have hnone : ∀ w ∈ s.vendors, ¬(w.email = dto.email ∧ w.isDeleted = false) := by
      intro w hw
      have := List.find?_eq_none.mp hnd w hw
      simpa [Bool.and_eq_true, beq_iff_eq] using this
    cases hdel : s.vendors.find? (fun v => v.email == dto.email && v.isDeleted == true) with
    | some w =>
      have hwm : w ∈ s.vendors := List.mem_of_find?_eq_some hdel
      intro e
      simp only
      by_cases he : e = dto.email
      · subst he
        rw [countP_map_congr _ _ (fun v => v.id == w.id)]
        · exact Nat.le_of_eq (countP_eq_one_of_nodup_key Vendor.id s.vendors hids w hwm)
        · intro a ha
          by_cases hid : a.id = w.id
          · simp [hid, reactivateVendor]
          · have h1 : (a.id == w.id) = false := beq_eq_false_iff_ne.mpr hid
            rw [if_neg (by simp [hid]), h1]
            by_cases hae : a.email = dto.email
            · have had : a.isDeleted = true := by
                rcases Bool.eq_false_or_eq_true a.isDeleted with h | h
                · exact h
                · exact absurd ⟨hae, h⟩ (hnone a ha)
              simp [had]
            · simp [beq_eq_false_iff_ne.mpr hae]
      · calc ((s.vendors.map fun v => if v.id == w.id then reactivateVendor dto v else v).countP
            (fun v => !v.isDeleted && v.email == e))
            ≤ s.vendors.countP (fun v => !v.isDeleted && v.email == e) := by
              apply countP_map_le
              intro a ha hpa
              by_cases hid : a.id = w.id
              · rw [if_pos (by simp [hid])] at hpa
                simp only [reactivateVendor, Bool.and_eq_true, beq_iff_eq] at hpa
                exact absurd hpa.2 (fun h => he h.symm)
              · rwa [if_neg (by simp [hid])] at hpa
          _ ≤ 1 := hinv e
    | none =>
      intro e
      simp only [List.countP_append]
      by_cases he : e = dto.email
      · subst he
        have h0 : s.vendors.countP (fun v => !v.isDeleted && v.email == dto.email) = 0 := by
          rw [List.countP_eq_zero]
          intro a ha
          simp only [Bool.and_eq_true, beq_iff_eq, Bool.not_eq_true', not_and]
          intro had hae
          exact absurd ⟨hae, had⟩ (hnone a ha)
        rw [h0]
        simp
      · have h1 : (List.countP (fun v => !v.isDeleted && v.email == e)
            [({ id := s.nextId, companyName := dto.companyName,
                contactPerson := dto.contactPerson, email := dto.email, phone := dto.phone,
                address := dto.address, category := dto.category, notes := dto.notes,
                isActive := true, isDeleted := false } : Vendor)]) = 0 := by
          simp [beq_eq_false_iff_ne.mpr (fun h => he h.symm)]
        rw [h1]
        simpa using hinv e

/-- `VendorService.update` preserves the unique-email invariant (DTO emails are
validated by `IsEmail`, so a present email is non-empty). -/
theorem update_preserves_invariant (s : State) (id : Nat) (dto2 : UpdateVendorDto)
    (hids : (s.vendors.map Vendor.id).Nodup)
    (hinv : atMostOnePerEmail s.vendors)
    (hdto2 : ∀ e, dto2.email = some e → e ≠ "") :
    atMostOnePerEmail (VendorService.update s id dto2).2.vendors := by
  unfold VendorService.update
  cases hfv : s.vendors.find? (fun v => v.id == id && v.isDeleted == false) with
  | none => exact hinv
  | some v =>
    have hvm : v ∈ s.vendors := List.mem_of_find?_eq_some hfv
    have hvp := List.find?_some hfv
    simp only [Bool.and_eq_true, beq_iff_eq] at hvp
    show atMostOnePerEmail
      (if strTruthy dto2.email = true ∧ dto2.email ≠ some v.email then
        match s.vendors.find? (fun (w : Vendor) =>
            some w.email == dto2.email && w.isDeleted == false) with
        | some _ => ((Except.error VendorError.conflict : Except VendorError Nat), s)
        | none =>
          (Except.ok id,
            { s with vendors := s.vendors.map (fun (w : Vendor) =>
                if w.id == v.id then applyUpdateVendorDto dto2 w else w) })
      else
        (Except.ok id,
          { s with vendors := s.vendors.map (fun (w : Vendor) =>
              if w.id == v.id then applyUpdateVendorDto dto2 w else w) })).2.vendors
    by_cases hc : strTruthy dto2.email = true ∧ dto2.email ≠ some v.email
    · rw [if_pos hc]
      obtain ⟨e', he'⟩ : ∃ e', dto2.email = some e' := by
        cases hde : dto2.email with
        | none => rw [hde] at hc; exact absurd hc.1 (by simp [strTruthy])
        | some x => exact ⟨x, rfl⟩
      have hne : e' ≠ v.email := fun h => hc.2 (by rw [he', h])
      cases hfe : s.vendors.find? (fun w => some w.email == dto2.email && w.isDeleted == false) with
      | some _ => exact hinv
      | none =>
        have hnone2 : ∀ w ∈ s.vendors, ¬(w.email = e' ∧ w.isDeleted = false) := by
          intro w hw
          have := List.find?_eq_none.mp hfe w hw
          simp only [he', Bool.and_eq_true, beq_iff_eq, Option.some.injEq] at this
          simpa using this
        intro e
        simp only
        by_cases he : e = e'
        · rw [he]
          rw [countP_map_congr _ _ (fun w => w.id == v.id)]
          · exact Nat.le_of_eq (countP_eq_one_of_nodup_key Vendor.id s.vendors hids v hvm)
          · intro a ha
            by_cases hid : a.id = v.id
            · have hav : a = v := eq_of_mem_nodup_key Vendor.id s.vendors hids a v ha hvm hid
              subst hav
              simp [applyUpdateVendorDto, he', hvp.2]
            · have h1 : (a.id == v.id) = false := beq_eq_false_iff_ne.mpr hid
              rw [if_neg (by simp [hid]), h1]
              by_cases hae : a.email = e'
              · have had : a.isDeleted = true := by
                  rcases Bool.eq_false_or_eq_true a.isDeleted with h | h
                  · exact h
                  · exact absurd ⟨hae, h⟩ (hnone2 a ha)
                simp [had]
              · simp [beq_eq_false_iff_ne.mpr hae]
        · calc ((s.vendors.map fun w => if w.id == v.id then applyUpdateVendorDto dto2 w else w).countP
              (fun w => !w.isDeleted && w.email == e))
              ≤ s.vendors.countP (fun w => !w.isDeleted && w.email == e) := by
                apply countP_map_le
                intro a ha hpa
                by_cases hid : a.id = v.id
                · rw [if_pos (by simp [hid])] at hpa
                  simp only [applyUpdateVendorDto, he', Bool.and_eq_true, beq_iff_eq,
                    Option.getD_some] at hpa
                  exact absurd hpa.2 (fun h => he h.symm)
                · rwa [if_neg (by simp [hid])] at hpa
            _ ≤ 1 := hinv e
    · rw [if_neg hc]
      have hemail : ∀ w, w.id = v.id → w ∈ s.vendors →
          (applyUpdateVendorDto dto2 w).email = w.email := by
        intro w hwid hw
        have hwv : w = v := eq_of_mem_nodup_key Vendor.id s.vendors hids w v hw hvm hwid
        subst hwv
        cases hde : dto2.email with
        | none => simp [applyUpdateVendorDto, hde]
        | some e' =>
          have : e' = w.email := by
            rcases not_and_or.mp hc with h | h
            · exact absurd (by simp [strTruthy, hde, hdto2 e' hde]) h
            · have h2 := not_not.mp h
              rw [hde] at h2
              exact Option.some.inj h2
          simp [applyUpdateVendorDto, hde, this]
      intro e
      simp only
      rw [countP_map_congr _ _ (fun w => !w.isDeleted && w.email == e)]
      · exact hinv e
      · intro a ha
        by_cases hid : a.id = v.id
        · rw [if_pos (by simp [hid]), hemail a hid ha]
          simp [applyUpdateVendorDto]
        · rw [if_neg (by simp [hid])]

/-- `VendorService.remove` (soft delete) preserves the unique-email invariant. -/
theorem remove_preserves_invariant (s : State) (id : Nat)
    (hinv : atMostOnePerEmail s.vendors) :
    atMostOnePerEmail (VendorService.remove s id).2.vendors := by
  unfold VendorService.remove
  cases hfv : s.vendors.find? (fun v => v.id == id && v.isDeleted == false) with
  | none => exact hinv
  | some v =>
    intro e
    simp only
    calc ((s.vendors.map fun w => if w.id == v.id then { w with isDeleted := true } else w).countP
        (fun w => !w.isDeleted && w.email == e))
        ≤ s.vendors.countP (fun w => !w.isDeleted && w.email == e) := by
          apply countP_map_le
          intro a _ hpa
          by_cases hid : a.id = v.id
          · rw [if_pos (by simp [hid])] at hpa
            simp at hpa
          · rwa [if_neg (by simp [hid])] at hpa
      _ ≤ 1 := hinv e

/-- Claim C8: creating a vendor whose email matches an existing non-deleted
vendor fails with a conflict and leaves the store untouched; creating one whose
email matches only a soft-deleted vendor reactivates that row (isDeleted
false, isActive true) without inserting; and `create`, `update` and `remove`
all preserve the invariant that at most one non-deleted vendor exists per
email. -/
theorem c8_vendor_soft_delete_invariant (s : State) (dto : CreateVendorDto)
    (id : Nat) (dto2 : UpdateVendorDto)
    (hids : (s.vendors.map Vendor.id).Nodup)
    (hinv : atMostOnePerEmail s.vendors)
    (hdto2 : ∀ e, dto2.email = some e → e ≠ "") :
    ((∃ w ∈ s.vendors, w.isDeleted = false ∧ w.email = dto.email) →
      VendorService.create s dto = (.error .conflict, s)) ∧
    ((∀ w ∈ s.vendors, ¬(w.isDeleted = false ∧ w.email = dto.email)) →
      (∃ w ∈ s.vendors, w.isDeleted = true ∧ w.email = dto.email) →
      (VendorService.create s dto).2.vendors.length = s.vendors.length ∧
      ∃ wid, (VendorService.create s dto).1 = .ok wid ∧
        ∃ v' ∈ (VendorService.create s dto).2.vendors, v'.id = wid ∧
          v'.isDeleted = false ∧ v'.isActive = true ∧ v'.email = dto.email) ∧
    atMostOnePerEmail (VendorService.create s dto).2.vendors ∧
    atMostOnePerEmail (VendorService.update s id dto2).2.vendors ∧
    atMostOnePerEmail (VendorService.remove s id).2.vendors := by
  refine ⟨?_, ?_, create_preserves_invariant s dto hids hinv,
    update_preserves_invariant s id dto2 hids hinv hdto2,
    remove_preserves_invariant s id hinv⟩
  · intro ⟨w, hw, hwd, hwe⟩
    have hsome : (s.vendors.find? (fun v => v.email == dto.email && v.isDeleted == false)).isSome := by
      rw [List.find?_isSome]
      exact ⟨w, hw, by simp [hwe, hwd]⟩
    unfold VendorService.create
    cases hnd : s.vendors.find? (fun v => v.email == dto.email && v.isDeleted == false) with
    | none => rw [hnd] at hsome; simp at hsome
    | some _ => rfl
  · intro hnone hdel
    have hsome : (s.vendors.find? (fun v => v.email == dto.email && v.isDeleted == true)).isSome := by
      rw [List.find?_isSome]
      obtain ⟨w, hw, hwd, hwe⟩ := hdel
      exact ⟨w, hw, by simp [hwe, hwd]⟩
    have hnd : s.vendors.find? (fun v => v.email == dto.email && v.isDeleted == false) = none := by
      rw [List.find?_eq_none]
      intro w hw
      simp only [Bool.and_eq_true, beq_iff_eq, not_and]
      intro hwe hwd
      exact absurd ⟨hwd, hwe⟩ (hnone w hw)
    obtain ⟨w, hwf⟩ : ∃ w, s.vendors.find?
        (fun v => v.email == dto.email && v.isDeleted == true) = some w := by
      cases hx : s.vendors.find? (fun v => v.email == dto.email && v.isDeleted == true) with
      | none => rw [hx] at hsome; simp at hsome
      | some w => exact ⟨w, rfl⟩
    have hwm : w ∈ s.vendors := List.mem_of_find?_eq_some hwf
    unfold VendorService.create
    rw [hnd, hwf]
    refine ⟨by simp, w.id, rfl, ?_⟩
    refine ⟨reactivateVendor dto w, ?_, by simp [reactivateVendor], by simp [reactivateVendor],
      by simp [reactivateVendor], by simp [reactivateVendor]⟩
    have : reactivateVendor dto w =
        (fun v => if v.id == w.id then reactivateVendor dto v else v) w := by simp
    rw [this]
    exact List.mem_map_of_mem _ hwm

def c8State : State :=
  { vendors := [{ id := 1, companyName := "A", contactPerson := "a", email := "a@x.com" },
                { id := 2, companyName := "B", contactPerson := "b", email := "b@x.com",
                  isDeleted := true }]
    nextId := 100 }

def c8Dto : CreateVendorDto :=
  { companyName := "B2", contactPerson := "b2", email := "b@x.com" }

def c8Dto2 : UpdateVendorDto := { email := some "a2@x.com" }

theorem c8_vendor_soft_delete_invariant_witness :
    ((c8State.vendors.map Vendor.id).Nodup ∧ atMostOnePerEmail c8State.vendors ∧
      (∀ e, c8Dto2.email = some e → e ≠ "")) ∧
    (((∃ w ∈ c8State.vendors, w.isDeleted = false ∧ w.email = c8Dto.email) →
        VendorService.create c8State c8Dto = (.error .conflict, c8State)) ∧
      ((∀ w ∈ c8State.vendors, ¬(w.isDeleted = false ∧ w.email = c8Dto.email)) →
        (∃ w ∈ c8State.vendors, w.isDeleted = true ∧ w.email = c8Dto.email) →
        (VendorService.create c8State c8Dto).2.vendors.length = c8State.vendors.length ∧
        ∃ wid, (VendorService.create c8State c8Dto).1 = .ok wid ∧
          ∃ v' ∈ (VendorService.create c8State c8Dto).2.vendors, v'.id = wid ∧
            v'.isDeleted = false ∧ v'.isActive = true ∧ v'.email = c8Dto.email) ∧
      atMostOnePerEmail (VendorService.create c8State c8Dto).2.vendors ∧
      atMostOnePerEmail (VendorService.update c8State 1 c8Dto2).2.vendors ∧
      atMostOnePerEmail (VendorService.remove c8State 1).2.vendors) :=
  by
  have hinv : atMostOnePerEmail c8State.vendors := by
    intro e
    show List.countP _ _ ≤ 1
    simp only [c8State]
    by_cases h : ("a@x.com" == e) = true <;> simp [List.countP_cons, h]
  have hdto2 : ∀ e, c8Dto2.email = some e → e ≠ "" := by
    intro e he
    simp only [c8Dto2] at he
    injection he with h
    subst h
    decide
  exact ⟨⟨by decide, hinv, hdto2⟩,
    c8_vendor_soft_delete_invariant c8State c8Dto 1 c8Dto2 (by decide) hinv hdto2⟩

/-! ## Claim C1: idempotent Response upsert -/

/-- A list with at most one predicate hit has a unique hit value. -/
theorem countP_le_one_unique {α : Type} (p : α → Bool) (l : List α)
    (h : l.countP p ≤ 1) :
    ∀ a ∈ l, p a = true → ∀ b ∈ l, p b = true → a = b := by
  induction l with
  | nil => intro a ha; cases ha
  | cons c t ih =>
    intro a ha hpa b hb hpb
    rw [List.countP_cons] at h
    by_cases hpc : p c = true
    · have ht : t.countP p = 0 := by
        simp only [hpc, if_true] at h
        omega
      have hnone : ∀ x ∈ t, ¬p x = true := List.countP_eq_zero.mp ht
      have hac : a = c := by
        rcases List.mem_cons.mp ha with h1 | h1
        · exact h1
        · exact absurd hpa (hnone a h1)
      have hbc : b = c := by
        rcases List.mem_cons.mp hb with h1 | h1
        · exact h1
        · exact absurd hpb (hnone b h1)
      rw [hac, hbc]
    · have hat : a ∈ t := by
        rcases List.mem_cons.mp ha with h1 | h1
        · exact absurd (h1 ▸ hpa) hpc
        · exact h1
      have hbt : b ∈ t := by
        rcases List.mem_cons.mp hb with h1 | h1
        · exact absurd (h1 ▸ hpb) hpc
        · exact h1
      refine ih ?_ a hat hpa b hbt hpb
      simp only [Bool.not_eq_true] at hpc
      simp only [hpc, Bool.false_eq_true, if_false] at h
      omega

/-- After the Response upsert there is exactly one row for the pair, provided
there was at most one before. -/
theorem upsertProposal_countP (s : State) (rid vid : Nat) (e : EmailMessage)
    (info : List AttachmentInfo)
    (h : s.proposals.countP (fun p => p.rfpId == rid && p.vendorId == vid) ≤ 1) :
    (upsertProposal s rid vid e info).1.proposals.countP
      (fun p => p.rfpId == rid && p.vendorId == vid) = 1 := by
  unfold upsertProposal
  cases hf : s.proposals.find? (fun p => p.rfpId == rid && p.vendorId == vid) with
  | none =>
    have h0 : s.proposals.countP (fun p => p.rfpId == rid && p.vendorId == vid) = 0 :=
      List.countP_eq_zero.mpr (fun a ha => by
        simpa using List.find?_eq_none.mp hf a ha)
    simp [List.countP_append, h0, List.countP_cons]
  | some p0 =>
    have hp0 := List.find?_some hf
    have hm0 : p0 ∈ s.proposals := List.mem_of_find?_eq_some hf
    have hpos : 0 < s.proposals.countP (fun p => p.rfpId == rid && p.vendorId == vid) :=
      List.countP_pos_iff.mpr ⟨p0, hm0, hp0⟩
    simp only
    refine Eq.trans (countP_map_congr _ _
      (fun p => p.rfpId == rid && p.vendorId == vid) _ ?_) ?_
    · intro a _
      by_cases hid : a.id = p0.id
      · rw [if_pos (by simp [hid])]
      · rw [if_neg (by simp [hid])]
    · omega

/-- Every pair row after the Response upsert carries the message's raw fields
and status `parsing`, provided the pair had at most one row before. -/
theorem upsertProposal_pair_fields (s : State) (rid vid : Nat) (e : EmailMessage)
    (info : List AttachmentInfo)
    (h : s.proposals.countP (fun p => p.rfpId == rid && p.vendorId == vid) ≤ 1) :
    ∀ p ∈ (upsertProposal s rid vid e info).1.proposals,
      (p.rfpId == rid && p.vendorId == vid) = true →
      p.rawEmailBody = some e.body ∧ p.emailSubject = some e.subject ∧
      p.emailReceivedAt = some e.date ∧ p.emailMessageId = some e.messageId ∧
      p.attachments = info ∧ p.status = .parsing := by
  unfold upsertProposal
  cases hf : s.proposals.find? (fun p => p.rfpId == rid && p.vendorId == vid) with
  | none =>
    intro p hp hpred
    simp only at hp
    rcases List.mem_append.mp hp with hpl | hpr
    · exact absurd hpred (by simpa using List.find?_eq_none.mp hf p hpl)
    · rw [List.mem_singleton.mp hpr]
      exact ⟨rfl, rfl, rfl, rfl, rfl, rfl⟩
  | some p0 =>
    have hp0 := List.find?_some hf
    have hm0 : p0 ∈ s.proposals := List.mem_of_find?_eq_some hf
    intro p hp hpred
    simp only at hp
    obtain ⟨a, ha, rfl⟩ := List.mem_map.mp hp
    by_cases hid : a.id = p0.id
    · rw [if_pos (by simp [hid])]
      exact ⟨rfl, rfl, rfl, rfl, rfl, rfl⟩
    · rw [if_neg (by simp [hid])] at hpred ⊢
      have hap0 : a = p0 := countP_le_one_unique _ _ h a ha hpred p0 hm0 hp0
      exact absurd (congrArg Proposal.id hap0) hid

/-- Mapping a row transformation that preserves the pair key and the raw email
fields preserves the pair count and any raw-field facts about pair rows. -/
theorem pair_pres_map (rid vid : Nat) (l : List Proposal) (g : Proposal → Proposal)
    (hg : ∀ a, (g a).rfpId = a.rfpId ∧ (g a).vendorId = a.vendorId ∧
      (g a).rawEmailBody = a.rawEmailBody ∧ (g a).emailSubject = a.emailSubject ∧
      (g a).emailReceivedAt = a.emailReceivedAt ∧ (g a).emailMessageId = a.emailMessageId ∧
      (g a).attachments = a.attachments) :
    ((l.map g).countP (fun p => p.rfpId == rid && p.vendorId == vid) =
      l.countP (fun p => p.rfpId == rid && p.vendorId == vid)) ∧
    (∀ (b su mi : Option String) (d : Option Nat) (info : List AttachmentInfo),
      (∀ p ∈ l, (p.rfpId == rid && p.vendorId == vid) = true →
        p.rawEmailBody = b ∧ p.emailSubject = su ∧ p.emailReceivedAt = d ∧
        p.emailMessageId = mi ∧ p.attachments = info) →
      (∀ p ∈ l.map g, (p.rfpId == rid && p.vendorId == vid) = true →
        p.rawEmailBody = b ∧ p.emailSubject = su ∧ p.emailReceivedAt = d ∧
        p.emailMessageId = mi ∧ p.attachments = info)) := by
  constructor
  · refine countP_map_congr _ _ _ _ ?_
    intro a _
    rw [(hg a).1, (hg a).2.1]
  · intro b su mi d info hl p hp hpred
    obtain ⟨a, ha, rfl⟩ := List.mem_map.mp hp
    rw [(hg a).1, (hg a).2.1] at hpred
    obtain ⟨h1, h2, h3, h4, h5⟩ := hl a ha hpred
    exact ⟨(hg a).2.2.1.trans h1, (hg a).2.2.2.1.trans h2, (hg a).2.2.2.2.1.trans h3,
      (hg a).2.2.2.2.2.1.trans h4, (hg a).2.2.2.2.2.2.trans h5⟩

theorem setProposalStatus_proposals (s : State) (pid : Nat) (st : ProposalStatus) :
    (setProposalStatus s pid st).proposals = s.proposals.map (fun (p : Proposal) =>
      if p.id == pid then { p with status := st } else p) := rfl

theorem applyEvaluation_proposals (s : State) (pid : Nat) (ev : ProposalEvaluation) :
    (applyEvaluation s pid ev).proposals = s.proposals.map (fun (p : Proposal) =>
      if p.id == pid then
        { p with
          aiScore := some ev.overallScore
          aiScoreBreakdown := some ev.scoreBreakdown
          aiStrengths := some ev.strengths
          aiWeaknesses := some ev.weaknesses
          aiRecommendation := some ev.recommendation
          status := .evaluated }
      else p) := rfl

theorem applyParsedFields_proposals (s : State) (pid : Nat) (pd : ParsedProposal)
    (rfp : Rfp) :
    (applyParsedFields s pid pd rfp).proposals = s.proposals.map (fun (p : Proposal) =>
      if p.id == pid then
        { p with
          totalPrice := pd.totalPrice
          currency := strOrElseOpt pd.currency rfp.currency
          deliveryDays := pd.deliveryDays
          paymentTerms := pd.paymentTerms
          warrantyTerms := pd.warrantyTerms
          validityPeriod := pd.validityPeriod
          additionalTerms := pd.additionalTerms
          aiSummary := some pd.summary
          aiExtractedData := some pd
          status := .parsed }
      else p) := by
  unfold applyParsedFields
  split <;> rfl

/-- Through the whole ingestion pipeline, a matched message leaves exactly one
Response row for the matched pair, and that row carries the message's raw
fields, provided the pair had at most one row before. -/
theorem ingest_pair_count_fields (parseO : Option ParsedProposal)
    (evalO : Option ProposalEvaluation) (now : Nat) (s : State) (email : EmailMessage)
    (vendor : Vendor) (rv : RfpVendor) (rfp : Rfp)
    (hv : resolveVendor s email.fromAddr = some vendor)
    (ha : resolveAssignment s vendor.id = some rv)
    (hr : s.rfps.find? (fun r => r.id == rv.rfpId) = some rfp)
    (hcnt : s.proposals.countP (fun p => p.rfpId == rfp.id && p.vendorId == vendor.id) ≤ 1) :
    (processIncomingEmail parseO evalO now s email).state.proposals.countP
      (fun p => p.rfpId == rfp.id && p.vendorId == vendor.id) = 1 ∧
    (∀ p ∈ (processIncomingEmail parseO evalO now s email).state.proposals,
      (p.rfpId == rfp.id && p.vendorId == vendor.id) = true →
      p.rawEmailBody = some email.body ∧ p.emailSubject = some email.subject ∧
      p.emailReceivedAt = some email.date ∧ p.emailMessageId = some email.messageId ∧
      p.attachments = attachmentInfoOf email.attachments) := by
  have hup1 := upsertProposal_countP s rfp.id vendor.id email
    (attachmentInfoOf email.attachments) hcnt
  have hup2 : ∀ p ∈ (upsertProposal s rfp.id vendor.id email
      (attachmentInfoOf email.attachments)).1.proposals,
      (p.rfpId == rfp.id && p.vendorId == vendor.id) = true →
      p.rawEmailBody = some email.body ∧ p.emailSubject = some email.subject ∧
      p.emailReceivedAt = some email.date ∧ p.emailMessageId = some email.messageId ∧
      p.attachments = attachmentInfoOf email.attachments := by
    intro p hp hpred
    obtain ⟨h1, h2, h3, h4, h5, -⟩ := upsertProposal_pair_fields s rfp.id vendor.id email
      (attachmentInfoOf email.attachments) hcnt p hp hpred
    exact ⟨h1, h2, h3, h4, h5⟩
  have hgStatus : ∀ (pid : Nat) (st : ProposalStatus) (a : Proposal),
      ((fun (p : Proposal) => if p.id == pid then { p with status := st } else p) a).rfpId = a.rfpId ∧
      ((fun (p : Proposal) => if p.id == pid then { p with status := st } else p) a).vendorId = a.vendorId ∧
      ((fun (p : Proposal) => if p.id == pid then { p with status := st } else p) a).rawEmailBody = a.rawEmailBody ∧
      ((fun (p : Proposal) => if p.id == pid then { p with status := st } else p) a).emailSubject = a.emailSubject ∧
      ((fun (p : Proposal) => if p.id == pid then { p with status := st } else p) a).emailReceivedAt = a.emailReceivedAt ∧
      ((fun (p : Proposal) => if p.id == pid then { p with status := st } else p) a).emailMessageId = a.emailMessageId ∧
      ((fun (p : Proposal) => if p.id == pid then { p with status := st } else p) a).attachments = a.attachments := by
    intro pid st a
    by_cases hid : (a.id == pid) = true <;> simp [hid]
  unfold processIncomingEmail
  simp only [hv, ha, hr]
  cases parseO with
  | none =>
    rw [setProposalStatus_proposals, advanceRfpIfSent_proposals, markResponded_proposals]
    refine ⟨?_, ?_⟩
    · rw [(pair_pres_map rfp.id vendor.id _ _ (hgStatus _ .parse_failed)).1]
      exact hup1
    · exact (pair_pres_map rfp.id vendor.id _ _ (hgStatus _ .parse_failed)).2
        (some email.body) (some email.subject) (some email.messageId) (some email.date)
        (attachmentInfoOf email.attachments) hup2
  | some pd =>
    have hgParsed : ∀ (a : Proposal),
        ((fun (p : Proposal) => if p.id == (upsertProposal s rfp.id vendor.id email
            (attachmentInfoOf email.attachments)).2 then
          { p with
            totalPrice := pd.totalPrice
            currency := strOrElseOpt pd.currency rfp.currency
            deliveryDays := pd.deliveryDays
            paymentTerms := pd.paymentTerms
            warrantyTerms := pd.warrantyTerms
            validityPeriod := pd.validityPeriod
            additionalTerms := pd.additionalTerms
            aiSummary := some pd.summary
            aiExtractedData := some pd
            status := .parsed }
        else p) a).rfpId = a.rfpId ∧
        ((fun (p : Proposal) => if p.id == (upsertProposal s rfp.id vendor.id email
            (attachmentInfoOf email.attachments)).2 then
          { p with
            totalPrice := pd.totalPrice
            currency := strOrElseOpt pd.currency rfp.currency
            deliveryDays := pd.deliveryDays
            paymentTerms := pd.paymentTerms
            warrantyTerms := pd.warrantyTerms
            validityPeriod := pd.validityPeriod
            additionalTerms := pd.additionalTerms
            aiSummary := some pd.summary
            aiExtractedData := some pd
            status := .parsed }
        else p) a).vendorId = a.vendorId ∧
        ((fun (p : Proposal) => if p.id == (upsertProposal s rfp.id vendor.id email
            (attachmentInfoOf email.attachments)).2 then
          { p with
            totalPrice := pd.totalPrice
            currency := strOrElseOpt pd.currency rfp.currency
            deliveryDays := pd.deliveryDays
            paymentTerms := pd.paymentTerms
            warrantyTerms := pd.warrantyTerms
            validityPeriod := pd.validityPeriod
            additionalTerms := pd.additionalTerms
            aiSummary := some pd.summary
            aiExtractedData := some pd
            status := .parsed }
        else p) a).rawEmailBody = a.rawEmailBody ∧
        ((fun (p : Proposal) => if p.id == (upsertProposal s rfp.id vendor.id email
            (attachmentInfoOf email.attachments)).2 then
          { p with
            totalPrice := pd.totalPrice
            currency := strOrElseOpt pd.currency rfp.currency
            deliveryDays := pd.deliveryDays
            paymentTerms := pd.paymentTerms
            warrantyTerms := pd.warrantyTerms
            validityPeriod := pd.validityPeriod
            additionalTerms := pd.additionalTerms
            aiSummary := some pd.summary
            aiExtractedData := some pd
            status := .parsed }
        else p) a).emailSubject = a.emailSubject ∧
        ((fun (p : Proposal) => if p.id == (upsertProposal s rfp.id vendor.id email
            (attachmentInfoOf email.attachments)).2 then
          { p with
            totalPrice := pd.totalPrice
            currency := strOrElseOpt pd.currency rfp.currency
            deliveryDays := pd.deliveryDays
            paymentTerms := pd.paymentTerms
            warrantyTerms := pd.warrantyTerms
            validityPeriod := pd.validityPeriod
            additionalTerms := pd.additionalTerms
            aiSummary := some pd.summary
            aiExtractedData := some pd
            status := .parsed }
        else p) a).emailReceivedAt = a.emailReceivedAt ∧
        ((fun (p : Proposal) => if p.id == (upsertProposal s rfp.id vendor.id email
            (attachmentInfoOf email.attachments)).2 then
          { p with
            totalPrice := pd.totalPrice
            currency := strOrElseOpt pd.currency rfp.currency
            deliveryDays := pd.deliveryDays
            paymentTerms := pd.paymentTerms
            warrantyTerms := pd.warrantyTerms
            validityPeriod := pd.validityPeriod
            additionalTerms := pd.additionalTerms
            aiSummary := some pd.summary
            aiExtractedData := some pd
            status := .parsed }
        else p) a).emailMessageId = a.emailMessageId ∧
        ((fun (p : Proposal) => if p.id == (upsertProposal s rfp.id vendor.id email
            (attachmentInfoOf email.attachments)).2 then
          { p with
            totalPrice := pd.totalPrice
            currency := strOrElseOpt pd.currency rfp.currency
            deliveryDays := pd.deliveryDays
            paymentTerms := pd.paymentTerms
            warrantyTerms := pd.warrantyTerms
            validityPeriod := pd.validityPeriod
            additionalTerms := pd.additionalTerms
            aiSummary := some pd.summary
            aiExtractedData := some pd
            status := .parsed }
        else p) a).attachments = a.attachments := by
      intro a
      by_cases hid : (a.id == (upsertProposal s rfp.id vendor.id email
          (attachmentInfoOf email.attachments)).2) = true <;> simp [hid]
    cases evalO with
    | none =>
      rw [applyParsedFields_proposals, advanceRfpIfSent_proposals, markResponded_proposals]
      refine ⟨?_, ?_⟩
      · rw [(pair_pres_map rfp.id vendor.id _ _ hgParsed).1]
        exact hup1
      · exact (pair_pres_map rfp.id vendor.id _ _ hgParsed).2
          (some email.body) (some email.subject) (some email.messageId) (some email.date)
          (attachmentInfoOf email.attachments) hup2
    | some ev =>
      rw [applyEvaluation_proposals, applyParsedFields_proposals,
        advanceRfpIfSent_proposals, markResponded_proposals]
      have hgEval : ∀ (a : Proposal),
          ((fun (p : Proposal) => if p.id == (upsertProposal s rfp.id vendor.id email
              (attachmentInfoOf email.attachments)).2 then
            { p with
              aiScore := some ev.overallScore
              aiScoreBreakdown := some ev.scoreBreakdown
              aiStrengths := some ev.strengths
              aiWeaknesses := some ev.weaknesses
              aiRecommendation := some ev.recommendation
              status := .evaluated }
          else p) a).rfpId = a.rfpId ∧
          ((fun (p : Proposal) => if p.id == (upsertProposal s rfp.id vendor.id email
              (attachmentInfoOf email.attachments)).2 then
            { p with
              aiScore := some ev.overallScore
              aiScoreBreakdown := some ev.scoreBreakdown
              aiStrengths := some ev.strengths
              aiWeaknesses := some ev.weaknesses
              aiRecommendation := some ev.recommendation
              status := .evaluated }
          else p) a).vendorId = a.vendorId ∧
          ((fun (p : Proposal) => if p.id == (upsertProposal s rfp.id vendor.id email
              (attachmentInfoOf email.attachments)).2 then
            { p with
              aiScore := some ev.overallScore
              aiScoreBreakdown := some ev.scoreBreakdown
              aiStrengths := some ev.strengths
              aiWeaknesses := some ev.weaknesses
              aiRecommendation := some ev.recommendation
              status := .evaluated }
          else p) a).rawEmailBody = a.rawEmailBody ∧
          ((fun (p : Proposal) => if p.id == (upsertProposal s rfp.id vendor.id email
              (attachmentInfoOf email.attachments)).2 then
            { p with
              aiScore := some ev.overallScore
              aiScoreBreakdown := some ev.scoreBreakdown
              aiStrengths := some ev.strengths
              aiWeaknesses := some ev.weaknesses
              aiRecommendation := some ev.recommendation
              status := .evaluated }
          else p) a).emailSubject = a.emailSubject ∧
          ((fun (p : Proposal) => if p.id == (upsertProposal s rfp.id vendor.id email
              (attachmentInfoOf email.attachments)).2 then
            { p with
              aiScore := some ev.overallScore
              aiScoreBreakdown := some ev.scoreBreakdown
              aiStrengths := some ev.strengths
              aiWeaknesses := some ev.weaknesses
              aiRecommendation := some ev.recommendation
              status := .evaluated }
          else p) a).emailReceivedAt = a.emailReceivedAt ∧
          ((fun (p : Proposal) => if p.id == (upsertProposal s rfp.id vendor.id email
              (attachmentInfoOf email.attachments)).2 then
            { p with
              aiScore := some ev.overallScore
              aiScoreBreakdown := some ev.scoreBreakdown
              aiStrengths := some ev.strengths
              aiWeaknesses := some ev.weaknesses
              aiRecommendation := some ev.recommendation
              status := .evaluated }
          else p) a).emailMessageId = a.emailMessageId ∧
          ((fun (p : Proposal) => if p.id == (upsertProposal s rfp.id vendor.id email
              (attachmentInfoOf email.attachments)).2 then
            { p with
              aiScore := some ev.overallScore
              aiScoreBreakdown := some ev.scoreBreakdown
              aiStrengths := some ev.strengths
              aiWeaknesses := some ev.weaknesses
              aiRecommendation := some ev.recommendation
              status := .evaluated }
          else p) a).attachments = a.attachments := by
        intro a
        by_cases hid : (a.id == (upsertProposal s rfp.id vendor.id email
            (attachmentInfoOf email.attachments)).2) = true <;> simp [hid]
      refine ⟨?_, ?_⟩
      · rw [(pair_pres_map rfp.id vendor.id _ _ hgEval).1,
          (pair_pres_map rfp.id vendor.id _ _ hgParsed).1]
        exact hup1
      · exact (pair_pres_map rfp.id vendor.id _ _ hgEval).2
          (some email.body) (some email.subject) (some email.messageId) (some email.date)
          (attachmentInfoOf email.attachments)
          ((pair_pres_map rfp.id vendor.id _ _ hgParsed).2
            (some email.body) (some email.subject) (some email.messageId) (some email.date)
            (attachmentInfoOf email.attachments) hup2)

/-- Claim C1: processing two inbound messages from the same vendor that are
both matched to the same (request, vendor) pair leaves exactly one Response
row for the pair, whose raw fields (body, subject, received time, inbound
message id, attachment metadata) come from the second message; and the upsert
step of the second processing resets the pair row's status to `parsing` before
re-parsing. -/
theorem c1_idempotent_upsert
    (p1 : Option ParsedProposal) (q1 : Option ProposalEvaluation)
    (p2 : Option ParsedProposal) (q2 : Option ProposalEvaluation)
    (now1 now2 : Nat) (s0 : State) (e1 e2 : EmailMessage)
    (v1 v2 : Vendor) (rv1 rv2 : RfpVendor) (rfp1 rfp2 : Rfp)
    (hv1 : resolveVendor s0 e1.fromAddr = some v1)
    (ha1 : resolveAssignment s0 v1.id = some rv1)
    (hr1 : s0.rfps.find? (fun r => r.id == rv1.rfpId) = some rfp1)
    (hv2 : resolveVendor (processIncomingEmail p1 q1 now1 s0 e1).state e2.fromAddr = some v2)
    (ha2 : resolveAssignment (processIncomingEmail p1 q1 now1 s0 e1).state v2.id = some rv2)
    (hr2 : (processIncomingEmail p1 q1 now1 s0 e1).state.rfps.find?
      (fun r => r.id == rv2.rfpId) = some rfp2)
    (hsamev : v2.id = v1.id) (hsamer : rfp2.id = rfp1.id)
    (hcnt : s0.proposals.countP
      (fun p => p.rfpId == rfp1.id && p.vendorId == v1.id) ≤ 1) :
    ((processIncomingEmail p2 q2 now2 (processIncomingEmail p1 q1 now1 s0 e1).state
        e2).state.proposals.countP
      (fun p => p.rfpId == rfp1.id && p.vendorId == v1.id) = 1) ∧
    (∀ p ∈ (processIncomingEmail p2 q2 now2 (processIncomingEmail p1 q1 now1 s0 e1).state
        e2).state.proposals,
      (p.rfpId == rfp1.id && p.vendorId == v1.id) = true →
      p.rawEmailBody = some e2.body ∧ p.emailSubject = some e2.subject ∧
      p.emailReceivedAt = some e2.date ∧ p.emailMessageId = some e2.messageId ∧
      p.attachments = attachmentInfoOf e2.attachments) ∧
    (∀ p ∈ (upsertProposal (processIncomingEmail p1 q1 now1 s0 e1).state rfp2.id v2.id e2
        (attachmentInfoOf e2.attachments)).1.proposals,
      (p.rfpId == rfp1.id && p.vendorId == v1.id) = true → p.status = .parsing) := by
  have hfirst := ingest_pair_count_fields p1 q1 now1 s0 e1 v1 rv1 rfp1 hv1 ha1 hr1 hcnt
  have hcnt1 : (processIncomingEmail p1 q1 now1 s0 e1).state.proposals.countP
      (fun p => p.rfpId == rfp1.id && p.vendorId == v1.id) ≤ 1 :=
    Nat.le_of_eq hfirst.1
  have hcnt1' : (processIncomingEmail p1 q1 now1 s0 e1).state.proposals.countP
      (fun p => p.rfpId == rfp2.id && p.vendorId == v2.id) ≤ 1 := by
    rw [hsamev, hsamer]
    exact hcnt1
  have hsecond := ingest_pair_count_fields p2 q2 now2
    (processIncomingEmail p1 q1 now1 s0 e1).state e2 v2 rv2 rfp2 hv2 ha2 hr2 hcnt1'
  rw [hsamev, hsamer] at hsecond
  refine ⟨hsecond.1, hsecond.2, ?_⟩
  intro p hp hpred
  have hcntup := upsertProposal_pair_fields (processIncomingEmail p1 q1 now1 s0 e1).state
    rfp2.id v2.id e2 (attachmentInfoOf e2.attachments) hcnt1'
  rw [← hsamev, ← hsamer] at hpred
  exact (hcntup p hp hpred).2.2.2.2.2

def c1V : Vendor := { id := 1, companyName := "A", contactPerson := "a", email := "a@x.com" }

def c1Rv1 : RfpVendor := { id := 21, rfpId := 10, vendorId := 1, status := .sent, sentAt := some 6 }

def c1Rv2 : RfpVendor := { id := 20, rfpId := 10, vendorId := 1, status := .sent, sentAt := some 5 }

def c1Rfp : Rfp := { id := 10, title := "R", description := "d", status := .sent }

def c1Rfp2 : Rfp := { id := 10, title := "R", description := "d", status := .evaluating }

def c1State : State :=
  { vendors := [c1V], rfps := [c1Rfp], rfpVendors := [c1Rv2, c1Rv1], nextId := 100 }

def c1E1 : EmailMessage :=
  { messageId := "m1", fromAddr := "A <a@x.com>", subject := "s1", body := "b1", date := 50,
    attachments := [] }

def c1E2 : EmailMessage :=
  { messageId := "m2", fromAddr := "a@x.com", subject := "s2", body := "b2", date := 60,
    attachments := [] }

def c1Pd : ParsedProposal := { summary := "parsed", confidence := 90, totalPrice := some 500 }

theorem c1_idempotent_upsert_witness :
    (resolveVendor c1State c1E1.fromAddr = some c1V ∧
      resolveAssignment c1State c1V.id = some c1Rv1 ∧
      c1State.rfps.find? (fun r => r.id == c1Rv1.rfpId) = some c1Rfp ∧
      resolveVendor (processIncomingEmail (some c1Pd) none 51 c1State c1E1).state
        c1E2.fromAddr = some c1V ∧
      resolveAssignment (processIncomingEmail (some c1Pd) none 51 c1State c1E1).state
        c1V.id = some c1Rv2 ∧
      (processIncomingEmail (some c1Pd) none 51 c1State c1E1).state.rfps.find?
        (fun r => r.id == c1Rv2.rfpId) = some c1Rfp2 ∧
      c1State.proposals.countP
        (fun p => p.rfpId == c1Rfp.id && p.vendorId == c1V.id) ≤ 1) ∧
    (((processIncomingEmail none none 61
          (processIncomingEmail (some c1Pd) none 51 c1State c1E1).state
          c1E2).state.proposals.countP
        (fun p => p.rfpId == c1Rfp.id && p.vendorId == c1V.id) = 1) ∧
      (∀ p ∈ (processIncomingEmail none none 61
          (processIncomingEmail (some c1Pd) none 51 c1State c1E1).state
          c1E2).state.proposals,
        (p.rfpId == c1Rfp.id && p.vendorId == c1V.id) = true →
        p.rawEmailBody = some c1E2.body ∧ p.emailSubject = some c1E2.subject ∧
        p.emailReceivedAt = some c1E2.date ∧ p.emailMessageId = some c1E2.messageId ∧
        p.attachments = attachmentInfoOf c1E2.attachments) ∧
      (∀ p ∈ (upsertProposal (processIncomingEmail (some c1Pd) none 51 c1State c1E1).state
          c1Rfp2.id c1V.id c1E2 (attachmentInfoOf c1E2.attachments)).1.proposals,
        (p.rfpId == c1Rfp.id && p.vendorId == c1V.id) = true → p.status = .parsing)) :=
  ⟨⟨by decide, by decide, by decide, by decide, by decide, by decide, by decide⟩,
    c1_idempotent_upsert (some c1Pd) none none none 51 61 c1State c1E1 c1E2 c1V c1V
      c1Rv1 c1Rv2 c1Rfp c1Rfp2 (by decide) (by decide) (by decide) (by decide) (by decide)
      (by decide) (by decide) (by decide) (by decide)⟩

/-! ## Claim C4: sendToVendors per-vendor failure isolation -/

/-- The Assignment rows of one (request, vendor) pair. -/
def assignmentsFor (s : State) (rid vid : Nat) : List RfpVendor :=
  s.rfpVendors.filter (fun rv => rv.rfpId == rid && rv.vendorId == vid)

/-- Well-formedness of the assignment table: distinct row ids, all below the
fresh-id counter. -/
def rvWellFormed (s : State) : Prop :=
  (s.rfpVendors.map RfpVendor.id).Nodup ∧ ∀ rv ∈ s.rfpVendors, rv.id < s.nextId

/-- Whether the send loop body fails for a vendor id: AI generation is only
consulted when the custom subject or body is missing or empty, and its failure
(or a send failure) makes the vendor count as failed. -/
def vendorSendFails (gen : Nat → Option EmailContent) (send : Nat → Option String)
    (dto : SendRfpDto) (vid : Nat) : Bool :=
  if !(strTruthy dto.customSubject && strTruthy dto.customBody) then
    match gen vid with
    | none => true
    | some _ => (send vid).isNone
  else (send vid).isNone

theorem upsertAssignment_wf (s : State) (rid vid : Nat) (msgId : String) (now : Nat)
    (h : rvWellFormed s) : rvWellFormed (upsertAssignment s rid vid msgId now) := by
  cases hf : s.rfpVendors.find? (fun rv => rv.rfpId == rid && rv.vendorId == vid) with
  | none =>
    simp only [upsertAssignment, hf]
    constructor
    · rw [List.map_append, List.nodup_append]
      refine ⟨h.1, List.nodup_singleton _, ?_⟩
      intro x hx hy
      simp only [List.map_cons, List.map_nil, List.mem_singleton] at hy
      obtain ⟨rv, hrv, rfl⟩ := List.mem_map.mp hx
      exact absurd hy (by have := h.2 rv hrv; omega)
    · intro rv hrv
      rcases List.mem_append.mp hrv with h1 | h1
      · have := h.2 rv h1
        show rv.id < s.nextId + 1
        omega
      · rw [List.mem_singleton.mp h1]
        show s.nextId < s.nextId + 1
        omega
  | some rv0 =>
    simp only [upsertAssignment, hf]
    constructor
    · have hids : ((s.rfpVendors.map fun (rv : RfpVendor) =>
          if rv.id == rv0.id then
            { rv with status := .sent, sentAt := some now, emailMessageId := some msgId }
          else rv).map RfpVendor.id) = s.rfpVendors.map RfpVendor.id := by
        rw [List.map_map]
        refine List.map_congr_left ?_
        intro a _
        by_cases hid : a.id = rv0.id
        · simp [Function.comp, hid]
        · simp [Function.comp, beq_eq_false_iff_ne.mpr hid]
      rw [hids]
      exact h.1
    · intro rv hrv
      obtain ⟨a, ha, rfl⟩ := List.mem_map.mp hrv
      have hlt := h.2 a ha
      by_cases hid : a.id = rv0.id
      · rw [if_pos (by simp [hid])]
        exact hlt
      · rw [if_neg (by simp [hid])]
        exact hlt

theorem upsertAssignment_rfps (s : State) (rid vid : Nat) (msgId : String) (now : Nat) :
    (upsertAssignment s rid vid msgId now).rfps = s.rfps := by
  unfold upsertAssignment
  split <;> rfl

/-- Filtering after a map that fixes every predicate hit and never creates new
hits gives the original filtration. -/
theorem filter_map_eq {α : Type} (g : α → α) (pred : α → Bool) (l : List α)
    (h : ∀ a ∈ l, pred (g a) = pred a ∧ (pred a = true → g a = a)) :
    (l.map g).filter pred = l.filter pred := by
  induction l with
  | nil => rfl
  | cons a t ih =>
    simp only [List.map_cons, List.filter_cons]
    rw [(h a (by simp)).1]
    cases hpa : pred a with
    | true =>
      rw [(h a (by simp)).2 hpa, ih (fun x hx => h x (by simp [hx]))]
    | false =>
      exact ih (fun x hx => h x (by simp [hx]))

theorem upsertAssignment_frame (s : State) (rid vid : Nat) (msgId : String) (now : Nat)
    (rid' vid' : Nat) (hne : vid' ≠ vid) (hwf : rvWellFormed s) :
    assignmentsFor (upsertAssignment s rid vid msgId now) rid' vid' =
      assignmentsFor s rid' vid' := by
  cases hf : s.rfpVendors.find? (fun rv => rv.rfpId == rid && rv.vendorId == vid) with
  | none =>
    unfold assignmentsFor
    simp only [upsertAssignment, hf]
    rw [List.filter_append]
    have : (List.filter (fun rv => rv.rfpId == rid' && rv.vendorId == vid')
        [({ id := s.nextId, rfpId := rid, vendorId := vid, status := .sent,
            sentAt := some now, emailMessageId := some msgId } : RfpVendor)]) = [] := by
      simp [beq_eq_false_iff_ne.mpr (fun h => hne h.symm)]
    rw [this, List.append_nil]
  | some rv0 =>
    have hm0 : rv0 ∈ s.rfpVendors := List.mem_of_find?_eq_some hf
    have hp0 := List.find?_some hf
    simp only [Bool.and_eq_true, beq_iff_eq] at hp0
    unfold assignmentsFor
    simp only [upsertAssignment, hf]
    refine filter_map_eq _ _ _ ?_
    intro a ha
    by_cases hid : a.id = rv0.id
    · have hav : a = rv0 := eq_of_mem_nodup_key RfpVendor.id s.rfpVendors hwf.1 a rv0 ha hm0 hid
      subst hav
      rw [if_pos (by simp)]
      refine ⟨rfl, ?_⟩
      intro hpa
      simp only [Bool.and_eq_true, beq_iff_eq] at hpa
      exact absurd (show vid' = vid by omega) hne
    · rw [if_neg (by simp [hid])]
      exact ⟨rfl, fun _ => rfl⟩

theorem sendToOneVendor_fail (now : Nat) (gen : Nat → Option EmailContent)
    (send : Nat → Option String) (dto : SendRfpDto) (rid : Nat) (s : State) (v : Vendor)
    (h : vendorSendFails gen send dto v.id = true) :
    (sendToOneVendor now gen send dto rid s v).1 = s ∧
    (sendToOneVendor now gen send dto rid s v).2.1 = false := by
  unfold vendorSendFails at h
  unfold sendToOneVendor
  by_cases hc : (strTruthy dto.customSubject && strTruthy dto.customBody) = true
  · rw [if_neg (by simp [hc])] at h ⊢
    cases hs : send v.id with
    | none => exact ⟨rfl, rfl⟩
    | some m => rw [hs] at h; simp at h
  · have hc' : (!(strTruthy dto.customSubject && strTruthy dto.customBody)) = true := by
      simp only [Bool.not_eq_true] at hc
      simp [hc]
    rw [if_pos hc'] at h ⊢
    cases hg : gen v.id with
    | none => exact ⟨rfl, rfl⟩
    | some c =>
      rw [hg] at h
      cases hs : send v.id with
      | none => exact ⟨rfl, rfl⟩
      | some m => rw [hs] at h; simp at h

theorem sendToOneVendor_flag (now : Nat) (gen : Nat → Option EmailContent)
    (send : Nat → Option String) (dto : SendRfpDto) (rid : Nat) (s : State) (v : Vendor) :
    (sendToOneVendor now gen send dto rid s v).2.1 =
      !vendorSendFails gen send dto v.id := by
  unfold sendToOneVendor vendorSendFails
  by_cases hc : (strTruthy dto.customSubject && strTruthy dto.customBody) = true
  · rw [if_neg (by simp [hc]), if_neg (by simp [hc])]
    cases hs : send v.id <;> rfl
  · have hc' : (!(strTruthy dto.customSubject && strTruthy dto.customBody)) = true := by
      simp only [Bool.not_eq_true] at hc
      simp [hc]
    rw [if_pos hc', if_pos hc']
    cases hg : gen v.id with
    | none => rfl
    | some c => cases hs : send v.id <;> rfl

theorem sendToOneVendor_wf (now : Nat) (gen : Nat → Option EmailContent)
    (send : Nat → Option String) (dto : SendRfpDto) (rid : Nat) (s : State) (v : Vendor)
    (h : rvWellFormed s) : rvWellFormed (sendToOneVendor now gen send dto rid s v).1 := by
  unfold sendToOneVendor
  split
  · cases hg : gen v.id with
    | none => exact h
    | some c =>
      cases hs : send v.id with
      | none => exact h
      | some m => exact upsertAssignment_wf s rid v.id m now h
  · cases hs : send v.id with
    | none => exact h
    | some m => exact upsertAssignment_wf s rid v.id m now h

theorem sendToOneVendor_rfps (now : Nat) (gen : Nat → Option EmailContent)
    (send : Nat → Option String) (dto : SendRfpDto) (rid : Nat) (s : State) (v : Vendor) :
    (sendToOneVendor now gen send dto rid s v).1.rfps = s.rfps := by
  unfold sendToOneVendor
  split
  · cases hg : gen v.id with
    | none => rfl
    | some c =>
      cases hs : send v.id with
      | none => rfl
      | some m => exact upsertAssignment_rfps s rid v.id m now
  · cases hs : send v.id with
    | none => rfl
    | some m => exact upsertAssignment_rfps s rid v.id m now

theorem sendToOneVendor_frame (now : Nat) (gen : Nat → Option EmailContent)
    (send : Nat → Option String) (dto : SendRfpDto) (rid : Nat) (s : State) (v : Vendor)
    (rid' vid' : Nat) (hne : vid' ≠ v.id) (hwf : rvWellFormed s) :
    assignmentsFor (sendToOneVendor now gen send dto rid s v).1 rid' vid' =
      assignmentsFor s rid' vid' := by
  unfold sendToOneVendor
  split
  · cases hg : gen v.id with
    | none => rfl
    | some c =>
      cases hs : send v.id with
      | none => rfl
      | some m => exact upsertAssignment_frame s rid v.id m now rid' vid' hne hwf
  · cases hs : send v.id with
    | none => rfl
    | some m => exact upsertAssignment_frame s rid v.id m now rid' vid' hne hwf

theorem sendLoop_counts (now : Nat) (gen : Nat → Option EmailContent)
    (send : Nat → Option String) (dto : SendRfpDto) (rid : Nat) :
    ∀ (vs : List Vendor) (s : State),
      (sendLoop now gen send dto rid s vs).sent +
        (sendLoop now gen send dto rid s vs).failed = vs.length := by
  intro vs
  induction vs with
  | nil => intro s; rfl
  | cons v rest ih =>
    intro s
    simp only [sendLoop]
    have hrest := ih (sendToOneVendor now gen send dto rid s v).1
    cases h : (sendToOneVendor now gen send dto rid s v).2.1 <;>
      simp only [h, if_true, if_false, Bool.false_eq_true, List.length_cons] <;> omega

theorem sendLoop_rfps (now : Nat) (gen : Nat → Option EmailContent)
    (send : Nat → Option String) (dto : SendRfpDto) (rid : Nat) :
    ∀ (vs : List Vendor) (s : State),
      (sendLoop now gen send dto rid s vs).state.rfps = s.rfps := by
  intro vs
  induction vs with
  | nil => intro s; rfl
  | cons v rest ih =>
    intro s
    simp only [sendLoop]
    rw [ih, sendToOneVendor_rfps]

theorem sendLoop_wf (now : Nat) (gen : Nat → Option EmailContent)
    (send : Nat → Option String) (dto : SendRfpDto) (rid : Nat) :
    ∀ (vs : List Vendor) (s : State), rvWellFormed s →
      rvWellFormed (sendLoop now gen send dto rid s vs).state := by
  intro vs
  induction vs with
  | nil => intro s h; exact h
  | cons v rest ih =>
    intro s h
    exact ih _ (sendToOneVendor_wf now gen send dto rid s v h)

theorem sendLoop_frame_nomem (now : Nat) (gen : Nat → Option EmailContent)
    (send : Nat → Option String) (dto : SendRfpDto) (rid : Nat) :
    ∀ (vs : List Vendor) (s : State) (rid' vid : Nat), rvWellFormed s →
      (∀ w ∈ vs, w.id ≠ vid) →
      assignmentsFor (sendLoop now gen send dto rid s vs).state rid' vid =
        assignmentsFor s rid' vid := by
  intro vs
  induction vs with
  | nil => intro s rid' vid _ _; rfl
  | cons v rest ih =>
    intro s rid' vid hwf hne
    simp only [sendLoop]
    rw [ih _ rid' vid (sendToOneVendor_wf now gen send dto rid s v hwf)
      (fun w hw => hne w (by simp [hw]))]
    exact sendToOneVendor_frame now gen send dto rid s v rid' vid
      (fun h => hne v (by simp) h.symm) hwf

theorem sendLoop_failed_frame (now : Nat) (gen : Nat → Option EmailContent)
    (send : Nat → Option String) (dto : SendRfpDto) (rid : Nat) :
    ∀ (vs : List Vendor) (s : State) (v : Vendor) (rid' : Nat), rvWellFormed s →
      (vs.map Vendor.id).Nodup → v ∈ vs →
      vendorSendFails gen send dto v.id = true →
      assignmentsFor (sendLoop now gen send dto rid s vs).state rid' v.id =
        assignmentsFor s rid' v.id := by
  intro vs
  induction vs with
  | nil => intro s v rid' _ _ hv; cases hv
  | cons w rest ih =>
    intro s v rid' hwf hnod hv hfail
    simp only [List.map_cons, List.nodup_cons] at hnod
    rcases List.mem_cons.mp hv with rfl | hvr
    · simp only [sendLoop]
      have hstep := sendToOneVendor_fail now gen send dto rid s v hfail
      rw [sendLoop_frame_nomem now gen send dto rid rest _ rid' v.id
        (sendToOneVendor_wf now gen send dto rid s v hwf)
        (fun x hx hxe => hnod.1 (hxe ▸ List.mem_map_of_mem Vendor.id hx))]
      rw [hstep.1]
    · simp only [sendLoop]
      have hne : v.id ≠ w.id := by
        intro h
        exact hnod.1 (h ▸ List.mem_map_of_mem Vendor.id hvr)
      rw [ih _ v rid' (sendToOneVendor_wf now gen send dto rid s w hwf) hnod.2 hvr hfail]
      exact sendToOneVendor_frame now gen send dto rid s w rid' v.id hne hwf

/-- Claim C4: with the Request present and not closed/deal_sold, `sendToVendors`
throws only when no valid vendors resolve; otherwise it processes every
resolved vendor and returns sent/failed counters summing to their number, an
individual vendor's generation or send failure only counts as failed and
leaves that vendor's Assignment rows untouched, and a `draft` Request
transitions to `sent` exactly when at least one send succeeds. -/
theorem c4_send_failure_isolation (now : Nat) (gen : Nat → Option EmailContent)
    (send : Nat → Option String) (s : State) (id : Nat) (dto : SendRfpDto) (rfp : Rfp)
    (hfind : s.rfps.find? (fun r => r.id == id) = some rfp)
    (hst1 : rfp.status ≠ .closed) (hst2 : rfp.status ≠ .deal_sold)
    (hwf : rvWellFormed s)
    (hvids : (s.vendors.map Vendor.id).Nodup)
    (hrids : (s.rfps.map Rfp.id).Nodup) :
    ((s.vendors.filter (fun v => dto.vendorIds.contains v.id && !v.isDeleted)) = [] →
      sendToVendors now gen send s id dto = ⟨.error .noValidVendors, s, 0⟩) ∧
    ((s.vendors.filter (fun v => dto.vendorIds.contains v.id && !v.isDeleted)) ≠ [] →
      ∃ sentN failedN,
        (sendToVendors now gen send s id dto).result = .ok (sentN, failedN) ∧
        sentN + failedN =
          (s.vendors.filter (fun v => dto.vendorIds.contains v.id && !v.isDeleted)).length ∧
        (∀ v ∈ s.vendors.filter (fun v => dto.vendorIds.contains v.id && !v.isDeleted),
          vendorSendFails gen send dto v.id = true →
          assignmentsFor (sendToVendors now gen send s id dto).state id v.id =
            assignmentsFor s id v.id) ∧
        (rfp.status = .draft →
          ∀ r ∈ (sendToVendors now gen send s id dto).state.rfps, r.id = id →
            r.status = (if 0 < sentN then RfpStatus.sent else RfpStatus.draft))) := by
  have hguard : (rfp.status == RfpStatus.closed || rfp.status == RfpStatus.deal_sold) = false := by
    simp only [Bool.or_eq_false_iff, beq_eq_false_iff_ne, ne_eq]
    exact ⟨hst1, hst2⟩
  constructor
  · intro hvs
    unfold sendToVendors
    simp only [hfind, hguard, Bool.false_eq_true, if_false, hvs]
    rfl
  · intro hvs
    have hlen : ¬(s.vendors.filter
        (fun v => dto.vendorIds.contains v.id && !v.isDeleted)).length = 0 := by
      simpa [List.length_eq_zero] using hvs
    unfold sendToVendors
    simp only [hfind, hguard, Bool.false_eq_true, if_false, hlen]
    refine ⟨(sendLoop now gen send dto id s
        (s.vendors.filter (fun v => dto.vendorIds.contains v.id && !v.isDeleted))).sent,
      (sendLoop now gen send dto id s
        (s.vendors.filter (fun v => dto.vendorIds.contains v.id && !v.isDeleted))).failed,
      rfl, sendLoop_counts now gen send dto id _ s, ?_, ?_⟩
    · intro v hv hfail
      have hvsnod : ((s.vendors.filter
          (fun v => dto.vendorIds.contains v.id && !v.isDeleted)).map Vendor.id).Nodup :=
        hvids.sublist ((List.filter_sublist _).map Vendor.id)
      show assignmentsFor (if _ then _ else _) id v.id = assignmentsFor s id v.id
      unfold assignmentsFor
      rw [apply_ite State.rfpVendors]
      simp only [ite_self]
      exact sendLoop_failed_frame now gen send dto id _ s v id hwf hvsnod hv hfail
    · intro hdraft r hr hrid
      have hrfpm : rfp ∈ s.rfps := List.mem_of_find?_eq_some hfind
      have hrfpid : rfp.id = id := by
        have := List.find?_some hfind
        simpa using this
      by_cases hcond : 0 < (sendLoop now gen send dto id s
          (s.vendors.filter (fun v => dto.vendorIds.contains v.id && !v.isDeleted))).sent ∧
          rfp.status = RfpStatus.draft
      · rw [if_pos hcond] at hr
        simp only [sendLoop_rfps] at hr
        obtain ⟨a, ha, rfl⟩ := List.mem_map.mp hr
        by_cases haid : a.id = id
        · rw [if_pos (by simp [haid])]
          simp only [if_pos hcond.1]
        · rw [if_neg (by simp [haid])] at hrid
          exact absurd hrid haid
      · rw [if_neg hcond] at hr
        simp only [sendLoop_rfps] at hr
        have hra : r = rfp := eq_of_mem_nodup_key Rfp.id s.rfps hrids r rfp hr hrfpm
          (hrid.trans hrfpid.symm)
        have hnotsent : ¬0 < (sendLoop now gen send dto id s
            (s.vendors.filter (fun v => dto.vendorIds.contains v.id && !v.isDeleted))).sent := by
          intro h
          exact hcond ⟨h, hdraft⟩
        rw [if_neg hnotsent, hra, hdraft]

def c4State : State :=
  { vendors := [{ id := 1, companyName := "A", contactPerson := "a", email := "a@x.com" },
                { id := 2, companyName := "B", contactPerson := "b", email := "b@x.com" },
                { id := 3, companyName := "C", contactPerson := "c", email := "c@x.com",
                  isDeleted := true }]
    rfps := [{ id := 10, title := "R", description := "d", status := .draft }]
    nextId := 100 }

def c4Rfp : Rfp := { id := 10, title := "R", description := "d", status := .draft }

def c4Gen : Nat → Option EmailContent :=
  fun vid => if vid == 2 then none else some { subject := "subj", body := "body" }

def c4Send : Nat → Option String := fun vid => if vid == 1 then some "mid1" else none

def c4Dto : SendRfpDto := { vendorIds := [1, 2, 3, 99] }

theorem c4_send_failure_isolation_witness :
    (c4State.rfps.find? (fun r => r.id == 10) = some c4Rfp ∧
      c4Rfp.status ≠ .closed ∧ c4Rfp.status ≠ .deal_sold ∧
      rvWellFormed c4State ∧ (c4State.vendors.map Vendor.id).Nodup ∧
      (c4State.rfps.map Rfp.id).Nodup) ∧
    (((c4State.vendors.filter
          (fun v => c4Dto.vendorIds.contains v.id && !v.isDeleted)) = [] →
        sendToVendors 7 c4Gen c4Send c4State 10 c4Dto =
          ⟨.error .noValidVendors, c4State, 0⟩) ∧
      ((c4State.vendors.filter
          (fun v => c4Dto.vendorIds.contains v.id && !v.isDeleted)) ≠ [] →
        ∃ sentN failedN,
          (sendToVendors 7 c4Gen c4Send c4State 10 c4Dto).result = .ok (sentN, failedN) ∧
          sentN + failedN = (c4State.vendors.filter
            (fun v => c4Dto.vendorIds.contains v.id && !v.isDeleted)).length ∧
          (∀ v ∈ c4State.vendors.filter
              (fun v => c4Dto.vendorIds.contains v.id && !v.isDeleted),
            vendorSendFails c4Gen c4Send c4Dto v.id = true →
            assignmentsFor (sendToVendors 7 c4Gen c4Send c4State 10 c4Dto).state 10 v.id =
              assignmentsFor c4State 10 v.id) ∧
          (c4Rfp.status = .draft →
            ∀ r ∈ (sendToVendors 7 c4Gen c4Send c4State 10 c4Dto).state.rfps, r.id = 10 →
              r.status = (if 0 < sentN then RfpStatus.sent else RfpStatus.draft)))) :=
  ⟨⟨by decide, by decide, by decide, ⟨by decide, by decide⟩, by decide, by decide⟩,
    c4_send_failure_isolation 7 c4Gen c4Send c4State 10 c4Dto c4Rfp (by decide) (by decide)
      (by decide) ⟨by decide, by decide⟩ (by decide) (by decide)⟩

/-! ## Claim C9: price ranking of the comparison engine -/

theorem insertSorted_perm {α : Type} (le : α → α → Bool) (x : α) (l : List α) :
    (insertSorted le x l).Perm (x :: l) := by
  induction l with
  | nil => exact List.Perm.refl _
  | cons y ys ih =>
    unfold insertSorted
    by_cases h : le y x = true
    · rw [if_pos h]
      exact (ih.cons y).trans (List.Perm.swap x y ys)
    · rw [if_neg h]

theorem mem_insertSorted {α : Type} (le : α → α → Bool) (x a : α) (l : List α) :
    a ∈ insertSorted le x l ↔ a = x ∨ a ∈ l := by
  rw [(insertSorted_perm le x l).mem_iff]
  simp

theorem insertSorted_pairwise {α : Type} (le : α → α → Bool)
    (htot : ∀ a b, le a b = false → le b a = true)
    (htrans : ∀ a b c, le a b = true → le b c = true → le a c = true)
    (x : α) (l : List α) (hl : l.Pairwise (fun a b => le a b = true)) :
    (insertSorted le x l).Pairwise (fun a b => le a b = true) := by
  induction l with
  | nil => simp [insertSorted]
  | cons y ys ih =>
    rw [List.pairwise_cons] at hl
    unfold insertSorted
    by_cases h : le y x = true
    · rw [if_pos h]
      rw [List.pairwise_cons]
      refine ⟨?_, ih hl.2⟩
      intro a ha
      rcases (mem_insertSorted le x a ys).mp ha with rfl | ha'
      · exact h
      · exact hl.1 a ha'
    · rw [if_neg h]
      rw [List.pairwise_cons]
      have hxy : le x y = true := htot y x (Bool.not_eq_true _ ▸ h)
      refine ⟨?_, List.pairwise_cons.mpr hl⟩
      intro a ha
      rcases List.mem_cons.mp ha with rfl | ha'
      · exact hxy
      · exact htrans x y a hxy (hl.1 a ha')

theorem stableSortBy_aux_perm {α : Type} (le : α → α → Bool) :
    ∀ (l acc : List α),
      (l.foldl (fun acc x => insertSorted le x acc) acc).Perm (acc ++ l) := by
  intro l
  induction l with
  | nil => intro acc; simp
  | cons x rest ih =>
    intro acc
    simp only [List.foldl_cons]
    refine (ih (insertSorted le x acc)).trans ?_
    refine (List.Perm.append_right rest (insertSorted_perm le x acc)).trans ?_
    exact List.perm_middle.symm

theorem stableSortBy_perm {α : Type} (le : α → α → Bool) (l : List α) :
    (stableSortBy le l).Perm l := by
  have := stableSortBy_aux_perm le l []
  simpa [stableSortBy] using this

theorem stableSortBy_aux_pairwise {α : Type} (le : α → α → Bool)
    (htot : ∀ a b, le a b = false → le b a = true)
    (htrans : ∀ a b c, le a b = true → le b c = true → le a c = true) :
    ∀ (l acc : List α), acc.Pairwise (fun a b => le a b = true) →
      (l.foldl (fun acc x => insertSorted le x acc) acc).Pairwise
        (fun a b => le a b = true) := by
  intro l
  induction l with
  | nil => intro acc h; exact h
  | cons x rest ih =>
    intro acc h
    simp only [List.foldl_cons]
    exact ih _ (insertSorted_pairwise le htot htrans x acc h)

theorem stableSortBy_pairwise {α : Type} (le : α → α → Bool)
    (htot : ∀ a b, le a b = false → le b a = true)
    (htrans : ∀ a b c, le a b = true → le b c = true → le a c = true)
    (l : List α) :
    (stableSortBy le l).Pairwise (fun a b => le a b = true) :=
  stableSortBy_aux_pairwise le htot htrans l [] (List.Pairwise.nil)

theorem rankPriceEntries_prices (b : Option Rat) :
    ∀ (n : Nat) (l : List (Proposal × String)),
      (rankPriceEntries b n l).map (fun e => e.price) =
        l.map (fun p => p.1.totalPrice) := by
  intro n l
  induction l generalizing n with
  | nil => rfl
  | cons p rest ih => simp [rankPriceEntries, ih]

theorem rankPriceEntries_rankings (b : Option Rat) :
    ∀ (n : Nat) (l : List (Proposal × String)),
      (rankPriceEntries b n l).map (fun e => e.ranking) = List.range' n l.length := by
  intro n l
  induction l generalizing n with
  | nil => rfl
  | cons p rest ih =>
    simp [rankPriceEntries, ih, List.range'_succ]

theorem rankPriceEntries_percent (b : Option Rat) :
    ∀ (n : Nat) (l : List (Proposal × String)), ∀ e ∈ rankPriceEntries b n l,
      e.percentOfBudget = percentOfBudgetOf b e.price := by
  intro n l
  induction l generalizing n with
  | nil => intro e he; cases he
  | cons p rest ih =>
    intro e he
    rcases List.mem_cons.mp he with rfl | he'
    · rfl
    · exact ih (n + 1) e he'

theorem rankPriceEntries_mem (b : Option Rat) :
    ∀ (n : Nat) (l : List (Proposal × String)), ∀ e ∈ rankPriceEntries b n l,
      ∃ p ∈ l, e.price = p.1.totalPrice := by
  intro n l
  induction l generalizing n with
  | nil => intro e he; cases he
  | cons p rest ih =>
    intro e he
    rcases List.mem_cons.mp he with rfl | he'
    · exact ⟨p, by simp⟩
    · obtain ⟨q, hq, hqe⟩ := ih (n + 1) e he'
      exact ⟨q, by simp [hq], hqe⟩

theorem rankPriceEntries_pairwise (b : Option Rat) :
    ∀ (n : Nat) (l : List (Proposal × String)),
      l.Pairwise (fun p q => jsOrNum p.1.totalPrice 0 ≤ jsOrNum q.1.totalPrice 0) →
      (rankPriceEntries b n l).Pairwise
        (fun e1 e2 => jsOrNum e1.price 0 ≤ jsOrNum e2.price 0) := by
  intro n l
  induction l generalizing n with
  | nil => intro _; exact List.Pairwise.nil
  | cons p rest ih =>
    intro hl
    rw [List.pairwise_cons] at hl
    rw [rankPriceEntries, List.pairwise_cons]
    refine ⟨?_, ih (n + 1) hl.2⟩
    intro e he
    obtain ⟨q, hq, hqe⟩ := rankPriceEntries_mem b (n + 1) rest e he
    show jsOrNum p.1.totalPrice 0 ≤ jsOrNum e.price 0
    rw [hqe]
    exact hl.1 q hq

def c9CState : State :=
  { vendors := [{ id := 1, companyName := "Z Corp", contactPerson := "z", email := "z@x.com" }]
    rfps := [{ id := 10, title := "R", description := "d", budget := some 10000,
               status := .evaluating }]
    proposals := [{ id := 100, rfpId := 10, vendorId := 1, totalPrice := some 0,
                    status := .parsed }]
    nextId := 200 }

/-- Claim C9 counterexample: with a known budget of 10000 and a response whose
known total price is 0, the code returns no `percentOfBudget` at all (the JS
truthiness test `budget && p.totalPrice` fails on the number 0), while the
claim as stated demands `totalPrice / budget × 100 = 0`. -/
theorem c9_percent_of_budget_counterexample :
    ((compareProposals c9CState 10).toOption.map (fun c =>
      (c.budget, c.priceComparison.map (fun e => (e.price, e.percentOfBudget))))) =
      some (some 10000, [(some 0, none)]) ∧
    (none : Option Rat) ≠ some ((0 : Rat) / 10000 * 100) := by
  exact ⟨by decide, by decide⟩

def c9ScState : State :=
  { vendors := [{ id := 1, companyName := "A Corp", contactPerson := "a", email := "a@x.com" },
                { id := 2, companyName := "B Corp", contactPerson := "b", email := "b@x.com" }]
    rfps := [{ id := 10, title := "R", description := "d", budget := some 10000,
               status := .evaluating }]
    proposals := [{ id := 100, rfpId := 10, vendorId := 1, totalPrice := some 9000,
                    status := .parsed },
                  { id := 101, rfpId := 10, vendorId := 2, totalPrice := some 11000,
                    status := .evaluated }]
    nextId := 200 }

/-- Claim C9 (amended): `compareProposals` ranks, over exactly the responses of
the request with a known total price, an ascending price list with ranking
positions 1..n, and `percentOfBudget = totalPrice / budget × 100` when the
budget is known **and nonzero and the response's total price is nonzero**
(otherwise the field is absent); with prices 9000 and 11000 and budget 10000
the 9000 response is ranked first with percentOfBudget 90; and with zero
responses all three ranking lists are empty. -/
theorem c9_price_ranking_amended (s : State) (rid : Nat) (rfp : Rfp)
    (hfind : s.rfps.find? (fun r => r.id == rid) = some rfp) :
    (∃ c, compareProposals s rid = .ok c ∧
      (c.priceComparison.map (fun e => e.price)).Perm
        (((s.proposals.filter (fun p => p.rfpId == rid)).filter
          (fun p => p.totalPrice.isSome)).map (fun p => p.totalPrice)) ∧
      c.priceComparison.Pairwise
        (fun e1 e2 => jsOrNum e1.price 0 ≤ jsOrNum e2.price 0) ∧
      c.priceComparison.map (fun e => e.ranking) =
        List.range' 1 ((s.proposals.filter (fun p => p.rfpId == rid)).filter
          (fun p => p.totalPrice.isSome)).length ∧
      (∀ e ∈ c.priceComparison, e.percentOfBudget = percentOfBudgetOf rfp.budget e.price) ∧
      (s.proposals.filter (fun p => p.rfpId == rid) = [] →
        c.priceComparison = [] ∧ c.deliveryComparison = [] ∧ c.scoreComparison = [])) ∧
    ((compareProposals c9ScState 10).toOption.map (fun c =>
      c.priceComparison.map (fun e => (e.vendorName, e.price, e.percentOfBudget, e.ranking)))) =
      some [("A Corp", some 9000, some 90, 1), ("B Corp", some 11000, some 110, 2)] := by
  have htot : ∀ (a b : Proposal × String),
      (decide (jsOrNum a.1.totalPrice 0 ≤ jsOrNum b.1.totalPrice 0)) = false →
      (decide (jsOrNum b.1.totalPrice 0 ≤ jsOrNum a.1.totalPrice 0)) = true := by
    intro a b hab
    simp only [decide_eq_false_iff_not] at hab
    simp only [decide_eq_true_eq]
    exact le_of_not_le hab
  have htrans : ∀ (a b c : Proposal × String),
      (decide (jsOrNum a.1.totalPrice 0 ≤ jsOrNum b.1.totalPrice 0)) = true →
      (decide (jsOrNum b.1.totalPrice 0 ≤ jsOrNum c.1.totalPrice 0)) = true →
      (decide (jsOrNum a.1.totalPrice 0 ≤ jsOrNum c.1.totalPrice 0)) = true := by
    intro a b c hab hbc
    simp only [decide_eq_true_eq] at hab hbc ⊢
    exact le_trans hab hbc
  refine ⟨?_, by
    norm_num [compareProposals, c9ScState, vendorNameOf, buildPriceComparison,
      buildDeliveryComparison, buildScoreComparison, stableSortBy, insertSorted,
      rankPriceEntries, rankDeliveryEntries, rankScoreEntries, percentOfBudgetOf,
      jsOrNum, Except.toOption]⟩
  unfold compareProposals
  simp only [hfind]
  by_cases h0 : ((s.proposals.filter (fun p => p.rfpId == rid)).map
      (fun p => (p, vendorNameOf s p))).length = 0
  · rw [if_pos h0]
    have hnil : s.proposals.filter (fun p => p.rfpId == rid) = [] := by
      rw [← List.length_eq_zero]
      simpa [List.length_map] using h0
    refine ⟨_, rfl, ?_, List.Pairwise.nil, ?_, ?_, ?_⟩
    · rw [hnil]
      exact List.Perm.refl _
    · rw [hnil]
      rfl
    · intro e he
      cases he
    · intro _
      exact ⟨rfl, rfl, rfl⟩
  · rw [if_neg h0]
    have hfilter : (((s.proposals.filter (fun p => p.rfpId == rid)).map
        (fun p => (p, vendorNameOf s p))).filter (fun p => p.1.totalPrice.isSome)) =
        ((s.proposals.filter (fun p => p.rfpId == rid)).filter
          (fun p => p.totalPrice.isSome)).map (fun p => (p, vendorNameOf s p)) := by
      rw [List.filter_map]
      rfl
    refine ⟨_, rfl, ?_, ?_, ?_, ?_, ?_⟩
    · show ((rankPriceEntries rfp.budget 1 _).map (fun e => e.price)).Perm _
      rw [rankPriceEntries_prices]
      refine ((stableSortBy_perm _ _).map _).trans ?_
      rw [hfilter, List.map_map]
      exact List.Perm.refl _
    · exact rankPriceEntries_pairwise rfp.budget 1 _
        ((stableSortBy_pairwise _ htot htrans _).imp (fun h => by
          simpa [decide_eq_true_eq] using h))
    · show (rankPriceEntries rfp.budget 1 _).map (fun e => e.ranking) = _
      rw [rankPriceEntries_rankings]
      have hlen : (stableSortBy (fun a b =>
          decide (jsOrNum a.1.totalPrice 0 ≤ jsOrNum b.1.totalPrice 0))
          (((s.proposals.filter (fun p => p.rfpId == rid)).map
            (fun p => (p, vendorNameOf s p))).filter
            (fun p => p.1.totalPrice.isSome))).length =
          ((s.proposals.filter (fun p => p.rfpId == rid)).filter
            (fun p => p.totalPrice.isSome)).length := by
        rw [(stableSortBy_perm _ _).length_eq, hfilter, List.length_map]
      rw [hlen]
    · intro e he
      exact rankPriceEntries_percent rfp.budget 1 _ e he
    · intro h
      refine absurd ?_ h0
      rw [h]
      rfl

def c9ScRfp : Rfp :=
  { id := 10, title := "R", description := "d", budget := some 10000, status := .evaluating }

theorem c9_price_ranking_amended_witness :
    (c9ScState.rfps.find? (fun r => r.id == 10) = some c9ScRfp) ∧
    ((∃ c, compareProposals c9ScState 10 = .ok c ∧
      (c.priceComparison.map (fun e => e.price)).Perm
        (((c9ScState.proposals.filter (fun p => p.rfpId == 10)).filter
          (fun p => p.totalPrice.isSome)).map (fun p => p.totalPrice)) ∧
      c.priceComparison.Pairwise
        (fun e1 e2 => jsOrNum e1.price 0 ≤ jsOrNum e2.price 0) ∧
      c.priceComparison.map (fun e => e.ranking) =
        List.range' 1 ((c9ScState.proposals.filter (fun p => p.rfpId == 10)).filter
          (fun p => p.totalPrice.isSome)).length ∧
      (∀ e ∈ c.priceComparison, e.percentOfBudget = percentOfBudgetOf c9ScRfp.budget e.price) ∧
      (c9ScState.proposals.filter (fun p => p.rfpId == 10) = [] →
        c.priceComparison = [] ∧ c.deliveryComparison = [] ∧ c.scoreComparison = [])) ∧
    ((compareProposals c9ScState 10).toOption.map (fun c =>
      c.priceComparison.map (fun e => (e.vendorName, e.price, e.percentOfBudget, e.ranking)))) =
      some [("A Corp", some 9000, some 90, 1), ("B Corp", some 11000, some 110, 2)]) :=
  ⟨by decide, c9_price_ranking_amended c9ScState 10 c9ScRfp (by decide)⟩
